import Mathlib

/-!
Verification development for the multi-provider streaming-chat subsystem of a
note-capture and chat front end.  The definitions below are a shallow
embedding of the TypeScript sources: the provider registry and model catalog
(`lib/providers/types.ts`), the storage helpers (`lib/providers/index.ts`),
the three provider adapters (`lib/providers/anthropic.ts`,
`lib/providers/openai.ts`, `lib/providers/gemini.ts`) and the brain-chat
utilities (file relevance discovery and system-prompt file ordering).

Modelling conventions:
- JavaScript numbers used for token counts are embedded as `Nat`; dollar
  amounts are embedded as `ℚ` (the number literals of the pricing table are
  exactly representable).
- JavaScript truthiness on string-valued expressions is embedded explicitly:
  `none` and `some ""` are falsy.
- `localStorage` is embedded as a total map from key strings to
  `Option String` (`getItem` returns `none` for missing keys).
- `JSON.parse` applied to tool-call argument text is an external primitive of
  the JavaScript runtime; it is embedded as an oracle parameter
  `jparse : String → Except String JsonInput` where `Except.error m` is a
  thrown `SyntaxError` with message `m` and the success value carries the
  only fields the adapters ever read (`path` and `query`, themselves
  optional since the parsed object may lack them).
- The vendor byte streams are embedded at the granularity the adapters
  consume them: a list of successfully `JSON.parse`d `data:` events (lines
  that fail to parse are swallowed by an empty `catch` in all three adapters
  and change no state, so they are omitted).
-/

/-- JavaScript `a || b` for a string-valued `a` that may be `null`/`undefined`
(`none`) or empty (falsy). -/
def jsOr (a : Option String) (b : String) : String :=
  match a with
  | some s => if s = "" then b else s
  | none => b

/-- JavaScript truthiness of a string-or-missing value. -/
def jsTruthy : Option String → Bool
  | some s => s ≠ ""
  | none => false

/-- Interpolation of a possibly-undefined JavaScript string into a template
literal: `undefined` prints as the text `undefined`. -/
def jsShow : Option String → String
  | some s => s
  | none => "undefined"

/-- Provider identifiers (`type Provider` in `lib/providers/types.ts`). -/
inductive Provider where
  | anthropic
  | openai
  | gemini
deriving Repr, DecidableEq

/-- Model tier for UI grouping (`type ModelTier`). -/
inductive ModelTier where
  | cheap
  | better
deriving Repr, DecidableEq

/-- Catalog entry with pricing (`interface ModelDefinition`). -/
structure ModelDefinition where
  id : String
  displayName : String
  provider : Provider
  tier : ModelTier
  inputCostPerMillion : ℚ
  outputCostPerMillion : ℚ
deriving Repr, DecidableEq

/-- The fields of `interface ProviderConfig` the embedded functions read. -/
structure ProviderConfig where
  id : Provider
  name : String
  keyPrefixStr : String
  storageKey : String
  modelStorageKey : String
  supportsWebSearch : Bool
  supportsCodeExecution : Bool
deriving Repr, DecidableEq

/-- The `PROVIDERS` record of `lib/providers/types.ts`. -/
def PROVIDERS : Provider → ProviderConfig
  | .anthropic =>
    { id := .anthropic, name := "Claude", keyPrefixStr := "sk-ant-",
      storageKey := "brain_anthropic_api_key",
      modelStorageKey := "brain_anthropic_model",
      supportsWebSearch := true, supportsCodeExecution := true }
  | .openai =>
    { id := .openai, name := "OpenAI", keyPrefixStr := "sk-",
      storageKey := "brain_openai_api_key",
      modelStorageKey := "brain_openai_model",
      supportsWebSearch := true, supportsCodeExecution := true }
  | .gemini =>
    { id := .gemini, name := "Gemini", keyPrefixStr := "AIza",
      storageKey := "brain_gemini_api_key",
      modelStorageKey := "brain_gemini_model",
      supportsWebSearch := true, supportsCodeExecution := true }

/-- The static model catalog `MODELS` of `lib/providers/types.ts`
(December 2025 pricing). -/
def MODELS : List ModelDefinition :=
  [ { id := "claude-haiku-4-5-20251001", displayName := "Haiku 4.5",
      provider := .anthropic, tier := .cheap,
      inputCostPerMillion := 1.00, outputCostPerMillion := 5.00 },
    { id := "claude-sonnet-4-5-20250929", displayName := "Sonnet 4.5",
      provider := .anthropic, tier := .better,
      inputCostPerMillion := 3.00, outputCostPerMillion := 15.00 },
    { id := "gpt-5-nano", displayName := "GPT-5 Nano",
      provider := .openai, tier := .cheap,
      inputCostPerMillion := 0.05, outputCostPerMillion := 0.40 },
    { id := "gpt-5-mini", displayName := "GPT-5 Mini",
      provider := .openai, tier := .better,
      inputCostPerMillion := 0.25, outputCostPerMillion := 2.00 },
    { id := "gemini-3-flash-preview", displayName := "Flash 3",
      provider := .gemini, tier := .cheap,
      inputCostPerMillion := 0.50, outputCostPerMillion := 3.00 },
    { id := "gemini-3-pro-preview", displayName := "Pro 3 Preview",
      provider := .gemini, tier := .better,
      inputCostPerMillion := 2.00, outputCostPerMillion := 12.00 } ]

/-- `getAllProviders` of `lib/providers/types.ts`. -/
def getAllProviders : List Provider :=
  [.anthropic, .openai, .gemini]

/-- `getModelById` of `lib/providers/types.ts`. -/
def getModelById (modelId : String) : Option ModelDefinition :=
  MODELS.find? (fun m => m.id == modelId)

/-- `getModelsForProvider` of `lib/providers/types.ts`. -/
def getModelsForProvider (provider : Provider) : List ModelDefinition :=
  MODELS.filter (fun m => m.provider == provider)

/-- `getDefaultModelForProvider` of `lib/providers/types.ts`:
`models.find(m => m.tier === 'cheap') || models[0]`, where the JavaScript
expression evaluates to `undefined` (here `none`) on an empty catalog. -/
def getDefaultModelForProvider (provider : Provider) : Option ModelDefinition :=
  let models := getModelsForProvider provider
  (models.find? (fun m => m.tier == ModelTier.cheap)).orElse (fun _ => models.head?)

/-- `WEB_SEARCH_COST` of `lib/providers/types.ts` ($0.01 per search). -/
def WEB_SEARCH_COST : ℚ := 0.01

/-- `calculateCost` of `lib/providers/types.ts`. -/
def calculateCost (inputTokens outputTokens : ℚ) (modelId : String)
    (webSearches : ℚ) : ℚ :=
  match getModelById modelId with
  | none => 0
  | some model =>
    let inputCost := inputTokens / 1000000 * model.inputCostPerMillion
    let outputCost := outputTokens / 1000000 * model.outputCostPerMillion
    let searchCost := webSearches * WEB_SEARCH_COST
    inputCost + outputCost + searchCost

/-! ### Persistent preference storage (`lib/providers/index.ts`) -/

/-- The browser `localStorage`, embedded as a total key-value map. -/
def Storage : Type := String → Option String

/-- `localStorage.getItem`. -/
def Storage.getItem (st : Storage) (key : String) : Option String := st key

/-- `localStorage.setItem`. -/
def Storage.setItem (st : Storage) (key value : String) : Storage :=
  fun q => if q = key then some value else st q

/-- `STORAGE_KEYS.ACTIVE_PROVIDER` of `lib/providers/types.ts`. -/
def ACTIVE_PROVIDER_KEY : String := "brain_api_provider"

/-- String form of a provider id as stored by `setActiveProvider`. -/
def Provider.asString : Provider → String
  | .anthropic => "anthropic"
  | .openai => "openai"
  | .gemini => "gemini"

/-- The saved-value check of `getActiveProvider`:
`saved === 'anthropic' || saved === 'openai' || saved === 'gemini'`. -/
def providerOfString (s : String) : Option Provider :=
  if s = "anthropic" then some .anthropic
  else if s = "openai" then some .openai
  else if s = "gemini" then some .gemini
  else none

/-- The early-return branch of `getActiveProvider`: the saved provider,
provided the saved value is a provider id and that provider has a truthy
stored key. -/
def activeFromSaved (st : Storage) : Option Provider :=
  match st.getItem ACTIVE_PROVIDER_KEY with
  | some saved =>
    match providerOfString saved with
    | some p =>
      if jsTruthy (st.getItem (PROVIDERS p).storageKey) then some p else none
    | none => none
  | none => none

/-- `getActiveProvider` of `lib/providers/index.ts` (the storage-present
branch; with no `localStorage` the function returns `anthropic`): the saved
selection when it has a configured key, else the first provider with a
configured key, else `anthropic`. -/
def getActiveProvider (st : Storage) : Provider :=
  match activeFromSaved st with
  | some p => p
  | none =>
    match getAllProviders.find?
        (fun p => jsTruthy (st.getItem (PROVIDERS p).storageKey)) with
    | some p => p
    | none => .anthropic

/-- `setActiveProvider` of `lib/providers/index.ts`: stores the selection
unconditionally. -/
def setActiveProvider (st : Storage) (provider : Provider) : Storage :=
  st.setItem ACTIVE_PROVIDER_KEY provider.asString

/-- `getApiKey` of `lib/providers/index.ts`. -/
def getApiKey (st : Storage) (provider : Provider) : Option String :=
  st.getItem (PROVIDERS provider).storageKey

/-- `hasApiKey` of `lib/providers/index.ts` (`!!getApiKey(provider)`). -/
def hasApiKey (st : Storage) (provider : Provider) : Bool :=
  jsTruthy (getApiKey st provider)

/-- The `getDefaultModelForProvider(provider).id` read of
`getSelectedModel`; the JavaScript expression would crash on an empty
per-provider catalog, and that unreachable case is embedded as `""`. -/
def defaultModelId (provider : Provider) : String :=
  match getDefaultModelForProvider provider with
  | some m => m.id
  | none => ""

/-- `getSelectedModel` of `lib/providers/index.ts`: the saved selection when
it is one of the provider's catalog ids, else the provider's default. -/
def getSelectedModel (st : Storage) (provider : Provider) : String :=
  match st.getItem (PROVIDERS provider).modelStorageKey with
  | some saved =>
    if saved ≠ "" ∧
        (getModelsForProvider provider).any (fun m => m.id == saved) then
      saved
    else defaultModelId provider
  | none => defaultModelId provider

/-- `setSelectedModel` of `lib/providers/index.ts`. -/
def setSelectedModel (st : Storage) (provider : Provider) (modelId : String) :
    Storage :=
  st.setItem (PROVIDERS provider).modelStorageKey modelId

/-! ### Key validation (one `validateKey` per adapter)

Each adapter issues one HTTP request and maps its outcome to a
`KeyValidationResult`; the outcome of that single request is embedded as
`HttpOutcome`: either a response with a status code together with the
`error.error?.message` field of the parsed body (`none` when the body does
not parse or the field is missing), or a network failure carrying the
exception message (`none` for a thrown non-`Error` value). -/

/-- Result type of `validateKey` (`interface KeyValidationResult`). -/
structure KeyValidationResult where
  valid : Bool
  error : Option String
deriving Repr, DecidableEq

/-- Outcome of the one HTTP request a `validateKey` implementation makes. -/
inductive HttpOutcome where
  | response (status : Nat) (vendorMessage : Option String)
  | networkFailure (message : Option String)
deriving Repr, DecidableEq

/-- The `Response.ok` flag: status in the range 200-299. -/
def httpOk (status : Nat) : Bool := 200 ≤ status && status ≤ 299

/-- `validateKey` of `lib/providers/anthropic.ts`. -/
def anthropicValidateKey : HttpOutcome → KeyValidationResult
  | .response status vendorMessage =>
    if httpOk status then { valid := true, error := none }
    else if status = 401 then { valid := false, error := some "Invalid API key" }
    else if status = 403 then
      { valid := false, error := some "API key lacks required permissions" }
    else
      { valid := false,
        error := some (jsOr vendorMessage ("API error: " ++ toString status)) }
  | .networkFailure message =>
    { valid := false,
      error := some (match message with
        | some m => m
        | none => "Failed to validate key") }

/-- `validateKey` of `lib/providers/openai.ts`. -/
def openaiValidateKey : HttpOutcome → KeyValidationResult
  | .response status vendorMessage =>
    if httpOk status then { valid := true, error := none }
    else if status = 401 then { valid := false, error := some "Invalid API key" }
    else
      { valid := false,
        error := some (jsOr vendorMessage ("API error: " ++ toString status)) }
  | .networkFailure message =>
    { valid := false,
      error := some (match message with
        | some m => m
        | none => "Failed to validate key") }

/-- `validateKey` of `lib/providers/gemini.ts`. -/
def geminiValidateKey : HttpOutcome → KeyValidationResult
  | .response status vendorMessage =>
    if httpOk status then { valid := true, error := none }
    else if status = 400 ∨ status = 403 then
      { valid := false, error := some "Invalid API key" }
    else
      { valid := false,
        error := some (jsOr vendorMessage ("API error: " ++ toString status)) }
  | .networkFailure message =>
    { valid := false,
      error := some (match message with
        | some m => m
        | none => "Failed to validate key") }

/-! ### Brain-chat utilities (`lib/brain-chat.ts`) -/

/-- ASCII lowering of a string (JavaScript `toLowerCase` on the ASCII
alphabet these functions operate over). -/
def toLowerStr (s : String) : String := String.mk (s.data.map Char.toLower)

/-- Character-list substring test used to embed JavaScript
`String.prototype.includes`. -/
def charsContain (needle : List Char) : List Char → Bool
  | [] => needle.isEmpty
  | c :: rest => needle.isPrefixOf (c :: rest) || charsContain needle rest

/-- JavaScript `hay.includes(needle)`. -/
def strIncludes (hay needle : String) : Bool := charsContain needle.data hay.data

/-- JavaScript `s.startsWith(t)` (kernel-computable form). -/
def strStartsWith (s t : String) : Bool := t.data.isPrefixOf s.data

/-- JavaScript `s.endsWith(t)` (kernel-computable form). -/
def strEndsWith (s t : String) : Bool := t.data.isSuffixOf s.data

/-- Numeric value of a list of decimal digit characters
(`parseInt(match[1], 10)` on the regex capture). -/
def parseDigits (cs : List Char) : Nat :=
  cs.foldl (fun n c => n * 10 + (c.toNat - 48)) 0

/-- First window of eight consecutive digit characters, scanning positions
left to right: the match of the regex `(\d\x7b8\x7d)` against the string. -/
def firstEightDigitRun : List Char → Option (List Char)
  | [] => none
  | c :: rest =>
    let w := (c :: rest).take 8
    if w.length = 8 ∧ w.all Char.isDigit then some w
    else firstEightDigitRun rest

/-- `extractDateFromPath` of `lib/brain-chat.ts`: numeric value of the first
eight-digit substring of the path, or `0` when there is none. -/
def extractDateFromPath (path : String) : Nat :=
  match firstEightDigitRun path.data with
  | some w => parseDigits w
  | none => 0

/-- File-tree node (`interface FileNode` of `lib/brain-chat.ts`).  A `dir`
node carries its children (`children` absent in TypeScript behaves as no
recursion, embedded as an empty list). -/
inductive FileNode where
  | file (name path : String)
  | dir (name path : String) (children : List FileNode)
deriving Repr

/-- The `knownSources` alias table of `extractKeywords`, in source order. -/
def knownSources : List (String × List String) :=
  [ ("indy dev dan", ["research/youtube/indy"]),
    ("indy", ["research/youtube/indy"]),
    ("lenny", ["research/youtube/lenny"]),
    ("lenny rachitsky", ["research/youtube/lenny"]),
    ("lenny\x27s podcast", ["research/youtube/lenny"]),
    ("anthropic", ["research/youtube/anthropic"]),
    ("no priors", ["research/youtube/nopriors"]),
    ("nopriors", ["research/youtube/nopriors"]),
    ("this day in ai", ["research/youtube/thisday"]),
    ("thisday", ["research/youtube/thisday"]),
    ("ai engineer", ["research/youtube/aie"]),
    ("aie", ["research/youtube/aie"]),
    ("ethan", ["research/newsletters/ethan"]),
    ("ethan mollick", ["research/newsletters/ethan"]),
    ("one useful thing", ["research/newsletters/ethan"]),
    ("simon", ["research/newsletters/simon"]),
    ("simon willison", ["research/newsletters/simon"]),
    ("avinash", ["research/newsletters/avinash"]),
    ("avinash kaushik", ["research/newsletters/avinash"]),
    ("sam", ["research/newsletters/sam"]),
    ("sam tomlinson", ["research/newsletters/sam"]),
    ("ben", ["research/newsletters/ben"]),
    ("ben tossell", ["research/newsletters/ben"]),
    ("ben\x27s bites", ["research/newsletters/ben"]),
    ("exponential", ["research/newsletters/exponential"]),
    ("exponential view", ["research/newsletters/exponential"]),
    ("azeem", ["research/newsletters/exponential"]),
    ("dan shipper", ["research/newsletters/every"]),
    ("every newsletter", ["research/newsletters/every"]),
    ("newsletter", ["research/newsletters"]),
    ("newsletters", ["research/newsletters"]),
    ("youtube", ["research/youtube"]),
    ("research", ["research"]),
    ("todo", ["todo"]),
    ("todos", ["todo"]),
    ("projects", ["projects"]),
    ("customers", ["customers"]),
    ("travel", ["travel"]) ]

/-- Deduplication via `[...new Set(xs)]`: keeps the first occurrence of each
element, in insertion order. -/
def dedupKeepFirst (l : List String) : List String :=
  l.foldl (fun acc s => if acc.contains s then acc else acc ++ [s]) []

/-- `extractKeywords` of `lib/brain-chat.ts`: folder path candidates for the
known source aliases mentioned in the query. -/
def extractKeywords (query : String) : List String :=
  let queryLower := toLowerStr query
  let matchedPaths := knownSources.foldl
    (fun acc pr => if strIncludes queryLower pr.1 then acc ++ pr.2 else acc) []
  dedupKeepFirst matchedPaths

/-- The per-node folder test of `searchTreeForKeywords`:
`node.path.toLowerCase().startsWith(folderPath.toLowerCase())` for some
candidate folder. -/
def matchesFolder (folderPaths : List String) (path : String) : Bool :=
  folderPaths.any (fun fp => strStartsWith (toLowerStr path) (toLowerStr fp))

/-- `searchTreeForKeywords` of `lib/brain-chat.ts`: pre-order collection of
the `.md` files inside the candidate folders. -/
def searchTreeForKeywords (folderPaths : List String) :
    List FileNode → List String
  | [] => []
  | FileNode.file name path :: rest =>
    (if matchesFolder folderPaths path && strEndsWith name ".md" then [path]
     else []) ++ searchTreeForKeywords folderPaths rest
  | FileNode.dir _ _ children :: rest =>
    searchTreeForKeywords folderPaths children ++
      searchTreeForKeywords folderPaths rest

/-- Scored entry of the relevance ranking in `findRelevantFiles`. -/
structure ScoredFile where
  path : String
  score : Nat
  date : Nat
deriving Repr, DecidableEq

/-- The recency check of `findRelevantFiles` on the lowered query. -/
def wantsRecentQuery (queryLower : String) : Bool :=
  strIncludes queryLower "recent" || strIncludes queryLower "latest" ||
  strIncludes queryLower "newest" || strIncludes queryLower "most recent" ||
  strIncludes queryLower "last"

/-- The keyword score of `findRelevantFiles`: how many candidate folder
strings appear in the lowered path. -/
def scoreFor (keywords : List String) (path : String) : Nat :=
  keywords.foldl
    (fun sc kw => if strIncludes (toLowerStr path) kw then sc + 1 else sc) 0

/-- Order produced by the recency comparator
`(a, b) => b.date - a.date, ties b.score - a.score` of `findRelevantFiles`:
`a` may precede `b` exactly when the comparator is nonpositive. -/
def byRecency (a b : ScoredFile) : Prop :=
  b.date < a.date ∨ (b.date = a.date ∧ b.score ≤ a.score)

/-- Order produced by the relevance comparator
`(a, b) => b.score - a.score, ties b.date - a.date` of `findRelevantFiles`. -/
def byScore (a b : ScoredFile) : Prop :=
  b.score < a.score ∨ (b.score = a.score ∧ b.date ≤ a.date)

instance : DecidableRel byRecency := fun a b => by
  unfold byRecency; infer_instance

instance : DecidableRel byScore := fun a b => by
  unfold byScore; infer_instance

/-- `findRelevantFiles` of `lib/brain-chat.ts`.  `Array.prototype.sort` is
stable with a consistent comparator, so it is embedded as the stable
`List.insertionSort` with the order the comparator induces. -/
def findRelevantFiles (query : String) (tree : List FileNode)
    (maxFiles : Nat) : List String :=
  let keywords := extractKeywords query
  if keywords.isEmpty then [] else
  let matchedFiles := searchTreeForKeywords keywords tree
  let queryLower := toLowerStr query
  let wantsRecent := wantsRecentQuery queryLower
  let scored := matchedFiles.map (fun path =>
    ScoredFile.mk path (scoreFor keywords path) (extractDateFromPath path))
  let sorted :=
    if wantsRecent then List.insertionSort byRecency scored
    else List.insertionSort byScore scored
  (sorted.take maxFiles).map (fun s => s.path)

/-- Order produced by the per-folder comparator
`(a, b) => dateB - dateA` of `buildSystemPrompt`. -/
def byDateDesc (a b : String) : Prop :=
  extractDateFromPath b ≤ extractDateFromPath a

instance : DecidableRel byDateDesc := fun a b => by
  unfold byDateDesc; infer_instance

/-- The per-folder file ordering of `buildSystemPrompt` in
`lib/brain-chat.ts`: `[...dirPaths].sort((a, b) => dateB - dateA)`, embedded
as the stable sort with the induced order; the prompt then shows the first
three entries as example filenames. -/
def sortFilesInDir (dirPaths : List String) : List String :=
  List.insertionSort byDateDesc dirPaths

/-! ### Shared streaming-callback contract (`lib/providers/types.ts`) -/

/-- Per-turn usage record (`interface UsageData`). -/
structure UsageData where
  inputTokens : Nat
  outputTokens : Nat
  webSearches : Nat
  cost : ℚ
deriving Repr, DecidableEq

/-- One callback invocation of the `StreamCallbacks` bundle.  A trace of a
`sendMessage` call is the list of invocations in order.  The two file
callbacks carry `Option String` because the adapters can pass a JavaScript
`undefined` path through them. -/
inductive Callback where
  | onStart
  | onToken (token : String)
  | onComplete (fullResponse : String)
  | onError (message : String)
  | onUsage (usage : UsageData)
  | onWebSearch (query : String)
  | onWebSearchResults (resultCount : Nat)
  | onCodeExecution (status : String)
  | onCodeExecutionComplete
  | onToolError (toolName message : String)
  | onFileLoad (path : Option String)
  | onFileLoaded (path : Option String) (success : Bool)
deriving Repr, DecidableEq

/-- Projection of the tool-call argument objects the adapters read: the
`path` field (for `load_file`) and the `query` field (for the Anthropic
web-search progress display); either may be absent. -/
structure JsonInput where
  path : Option String
  query : Option String
deriving Repr, DecidableEq

/-- Oracle for the JavaScript `JSON.parse` primitive on argument text,
projected to `JsonInput`: `Except.error m` is a thrown `SyntaxError` with
message `m`. -/
def JParse : Type := String → Except String JsonInput

/-- One element of the array the injected file loader resolves with. -/
structure FileResult where
  path : String
  content : String
deriving Repr, DecidableEq

/-- Outcome of one `loadFileContents([path])` call: a resolved array, or a
rejection (`some m` an `Error` with message `m`, `none` a non-`Error`
value). -/
inductive LoaderOutcome where
  | files (files : List FileResult)
  | throws (message : Option String)
deriving Repr, DecidableEq

/-- The injected file loader, applied to the single requested path (which
may be the JavaScript `undefined`). -/
def Loader : Type := Option String → LoaderOutcome

/-- Classification of an exception reaching a top-level `catch` block:
an abort (`err.name === 'AbortError'`), another `Error` with its message,
or a thrown non-`Error` value. -/
inductive JsExn where
  | abort
  | failure (message : String)
  | nonError
deriving Repr, DecidableEq

/-- Outcome of one streaming HTTP round as the adapters observe it:
a non-2xx response (with the vendor error message extracted from the body),
a response without a body stream, a stream interrupted by an exception after
some events were processed (cancellation rejects the pending read with an
`AbortError`), or a stream that drains to `done`. -/
inductive Round (ε : Type) where
  | httpError (status : Nat) (vendorMessage : Option String)
  | noBody
  | interrupted (events : List ε) (exn : JsExn)
  | completed (events : List ε)

/-- JavaScript `x || ''` on an optional string. -/
def jsOrEmpty (o : Option String) : String := jsOr o ""

/-- The tool-result text all three adapters compose when the loader returns
no file or an error-marker content for the requested path. -/
def loadFileErrorText (path : Option String) : String :=
  "Error: Could not load file \"" ++ jsShow path ++
    "\". Make sure the path is correct."

/-- The tool-result text composed in the `catch` branch of tool resolution. -/
def loadFileThrowText (message : Option String) : String :=
  "Error loading file: " ++ (match message with
    | some m => m
    | none => "Unknown error")

/-! ### Anthropic adapter (`lib/providers/anthropic.ts`) -/

/-- The `content_block_start` block shapes `makeStreamingRequest`
distinguishes (`block.id || ''` and `block.name || ''` are pre-applied). -/
inductive AnBlock where
  | toolUse (id name : String)
  | serverToolUse (name : String)
  | codeExecutionToolResult
  | codeExecutionToolResultError (errorMessage : Option String)
  | webSearchToolResultError (errorMessage : Option String)
  | webSearchToolResult (searchResults : Option Nat)
  | otherBlock
deriving Repr, DecidableEq

/-- The `content_block_delta` payloads the adapter distinguishes. -/
inductive AnDelta where
  | textDelta (text : String)
  | inputJsonDelta (partialJson : String)
  | otherDelta
deriving Repr, DecidableEq

/-- One parsed Anthropic stream event.  `messageStart` carries
`message.usage.input_tokens || 0` when a usage object is present;
`messageDelta` carries `usage.output_tokens || 0` when `parsed.usage` is
present, and the `delta.stop_reason` field. -/
inductive AnEvent where
  | contentBlockStart (block : AnBlock)
  | contentBlockDelta (delta : AnDelta)
  | contentBlockStop
  | messageStart (inputTokens : Option Nat)
  | messageDelta (outputTokens : Option Nat) (stopReason : Option String)
  | otherEvent
deriving Repr, DecidableEq

/-- A pending `load_file` call recorded at `content_block_stop`: the block
id, the tool name, and the `path` field of the parsed argument object. -/
structure AnPending where
  id : String
  name : String
  inputPath : Option String
deriving Repr, DecidableEq

/-- The mutable state of one Anthropic `makeStreamingRequest` stream loop.
The assistant/tool-result messages assembled for the continuation request
only feed the next (abstracted) network round and are not part of the
observable state. -/
structure AnState where
  fullResponse : String
  currentToolId : String
  currentToolName : String
  currentToolInput : String
  webSearchCount : Nat
  inputTokens : Nat
  outputTokens : Nat
  stopReason : String
  pendingToolCalls : List AnPending
  trace : List Callback
deriving Repr

/-- One step of the Anthropic stream loop on one parsed event
(`anthropic.ts`, the `for (const line of lines)` body). -/
def anStep (jparse : JParse) (s : AnState) : AnEvent → AnState
  | .contentBlockStart block =>
    match block with
    | .toolUse id name =>
      let s := { s with currentToolId := id, currentToolName := name,
                        currentToolInput := "" }
      if name = "load_file" then
        { s with trace := s.trace ++ [.onFileLoad (some "Loading file...")] }
      else s
    | .serverToolUse name =>
      let s := { s with currentToolName := name }
      if name = "web_search" then
        { s with trace := s.trace ++ [.onWebSearch "Searching the web..."] }
      else if name = "code_execution" then
        { s with trace := s.trace ++ [.onCodeExecution "Running code..."] }
      else s
    | .codeExecutionToolResult =>
      { s with trace := s.trace ++ [.onCodeExecutionComplete] }
    | .codeExecutionToolResultError m =>
      { s with trace := s.trace ++
          [.onToolError "code_execution" (jsOr m "Code execution failed")] }
    | .webSearchToolResultError m =>
      { s with trace := s.trace ++
          [.onToolError "web_search" (jsOr m "Web search failed")] }
    | .webSearchToolResult r =>
      match r with
      | some n =>
        { s with webSearchCount := s.webSearchCount + 1,
                 trace := s.trace ++ [.onWebSearchResults n] }
      | none => s
    | .otherBlock => s
  | .contentBlockDelta delta =>
    match delta with
    | .textDelta t =>
      if t ≠ "" then
        { s with fullResponse := s.fullResponse ++ t,
                 trace := s.trace ++ [.onToken t] }
      else s
    | .inputJsonDelta pj =>
      if pj ≠ "" then
        let s := { s with currentToolInput := s.currentToolInput ++ pj }
        if s.currentToolName = "load_file" then
          match jparse s.currentToolInput with
          | .ok input =>
            match input.path with
            | some p =>
              if p ≠ "" then
                { s with trace := s.trace ++ [.onFileLoad (some p)] }
              else s
            | none => s
          | .error _ => s
        else if s.currentToolName = "web_search" then
          match jparse s.currentToolInput with
          | .ok input =>
            match input.query with
            | some q =>
              if q ≠ "" then
                { s with trace := s.trace ++ [.onWebSearch q] }
              else s
            | none => s
          | .error _ => s
        else s
      else s
    | .otherDelta => s
  | .contentBlockStop =>
    let s :=
      if s.currentToolName = "load_file" ∧ s.currentToolId ≠ "" ∧
          s.currentToolInput ≠ "" then
        match jparse s.currentToolInput with
        | .ok input =>
          { s with pendingToolCalls := s.pendingToolCalls ++
              [⟨s.currentToolId, s.currentToolName, input.path⟩] }
        | .error _ => s
      else s
    { s with currentToolId := "", currentToolName := "", currentToolInput := "" }
  | .messageStart usage =>
    match usage with
    | some n => { s with inputTokens := s.inputTokens + n }
    | none => s
  | .messageDelta usage stop =>
    let s := match usage with
      | some n => { s with outputTokens := s.outputTokens + n }
      | none => s
    match stop with
    | some r => if r ≠ "" then { s with stopReason := r } else s
    | none => s
  | .otherEvent => s

/-- The accumulator parameters of the recursive Anthropic
`makeStreamingRequest`. -/
structure AnCarry where
  inputTokens : Nat
  outputTokens : Nat
  webSearches : Nat
  accumulatedResponse : String
deriving Repr, DecidableEq

/-- The stream-loop local state at entry of one Anthropic round. -/
def anInitState (c : AnCarry) : AnState :=
  { fullResponse := c.accumulatedResponse, currentToolId := "",
    currentToolName := "", currentToolInput := "",
    webSearchCount := c.webSearches, inputTokens := c.inputTokens,
    outputTokens := c.outputTokens, stopReason := "",
    pendingToolCalls := [], trace := [] }

/-- Folding the Anthropic stream loop over a list of parsed events. -/
def anFold (jparse : JParse) (s : AnState) (events : List AnEvent) : AnState :=
  events.foldl (anStep jparse) s

/-- Resolution of one pending Anthropic `load_file` call: the tool-result
content fed back to the model, and the callbacks emitted. -/
def anResolveCall (loader : Loader) (tc : AnPending) : String × List Callback :=
  let pre := [Callback.onFileLoad tc.inputPath]
  match loader tc.inputPath with
  | .files fs =>
    match fs.head? with
    | some file =>
      if ¬ strStartsWith file.content "[Error" then
        ("File: " ++ file.path ++ "\n\n" ++ file.content,
         pre ++ [.onFileLoaded tc.inputPath true])
      else
        (loadFileErrorText tc.inputPath,
         pre ++ [.onFileLoaded tc.inputPath false])
    | none =>
      (loadFileErrorText tc.inputPath,
       pre ++ [.onFileLoaded tc.inputPath false])
  | .throws m =>
    (loadFileThrowText m, pre ++ [.onFileLoaded tc.inputPath false])

/-- Callback trace of the Anthropic tool-resolution loop over the pending
calls in order. -/
def anResolveAll (loader : Loader) : List AnPending → List Callback
  | [] => []
  | tc :: rest =>
    (if tc.name = "load_file" then (anResolveCall loader tc).2 else []) ++
      anResolveAll loader rest

/-- The recursive Anthropic `makeStreamingRequest`, driven by the sequence
of network-round outcomes: returns the emitted callbacks and the exception
(if any) that escapes to the top-level `catch` of `sendMessage`.  An empty
round list means the network abstraction is exhausted; no further request
is modeled. -/
def anRun (jparse : JParse) (loader? : Option Loader) (modelId : String) :
    List (Round AnEvent) → AnCarry → List Callback × Option JsExn
  | [], _ => ([], none)
  | .httpError status m :: _, _ =>
    ([], some (.failure (jsOr m ("API error: " ++ toString status))))
  | .noBody :: _, _ => ([], some (.failure "No response body"))
  | .interrupted events exn :: _, carry =>
    ((anFold jparse (anInitState carry) events).trace, some exn)
  | .completed events :: rest, carry =>
    let s := anFold jparse (anInitState carry) events
    if s.stopReason = "tool_use" ∧ s.pendingToolCalls ≠ [] ∧ loader?.isSome then
      let loader := loader?.getD (fun _ => .files [])
      let resTrace := anResolveAll loader s.pendingToolCalls
      let (t, e) := anRun jparse loader? modelId rest
        ⟨s.inputTokens, s.outputTokens, s.webSearchCount, s.fullResponse⟩
      (s.trace ++ resTrace ++ t, e)
    else
      let usageTrace :=
        if s.inputTokens > 0 ∨ s.outputTokens > 0 then
          [Callback.onUsage ⟨s.inputTokens, s.outputTokens, s.webSearchCount,
            calculateCost s.inputTokens s.outputTokens modelId
              s.webSearchCount⟩]
        else []
      (s.trace ++ usageTrace ++ [.onComplete s.fullResponse], none)

/-- `sendMessage` of `lib/providers/anthropic.ts`: `onStart` first, then the
recursive streaming request inside the top-level `try`/`catch` that swallows
aborts and funnels other exceptions to `onError`. -/
def anSendMessage (jparse : JParse) (loader? : Option Loader)
    (modelId : String) (rounds : List (Round AnEvent)) : List Callback :=
  let (t, e) := anRun jparse loader? modelId rounds ⟨0, 0, 0, ""⟩
  Callback.onStart :: (t ++ match e with
    | none => []
    | some .abort => []
    | some (.failure m) => [.onError m]
    | some .nonError => [.onError "Failed to send message"])

/-! ### OpenAI adapter (`lib/providers/openai.ts`) -/

/-- One element of a `delta.tool_calls` array. -/
structure OaToolCallDelta where
  index : Option Nat
  id : Option String
  name : Option String
  args : Option String
deriving Repr, DecidableEq

/-- The `choices[0].delta` payload of one chunk. -/
structure OaDelta where
  content : Option String
  toolCalls : Option (List OaToolCallDelta)
deriving Repr, DecidableEq

/-- The `usage` payload of a chunk (present in the final chunk when
`stream_options.include_usage` is set). -/
structure OaUsage where
  promptTokens : Option Nat
  completionTokens : Option Nat
deriving Repr, DecidableEq

/-- One parsed OpenAI stream chunk as the adapter reads it. -/
structure OaEvent where
  delta : Option OaDelta
  finishReason : Option String
  usage : Option OaUsage
deriving Repr, DecidableEq

/-- A pending tool call accumulated by index
(`interface PendingToolCall` in `openai.ts`). -/
structure OaPending where
  id : String
  name : String
  arguments : String
deriving Repr, DecidableEq

/-- Insertion-ordered embedding of the `Map<number, PendingToolCall>`;
`Map` iteration follows insertion order. -/
abbrev OaPendingMap : Type := List (Nat × OaPending)

/-- `pendingToolCalls.has(index)`. -/
def oaMapHas (m : OaPendingMap) (i : Nat) : Bool :=
  m.any (fun p => p.1 == i)

/-- `pendingToolCalls.get(index)` on a present key (the adapter only reads
after ensuring presence; a missing key is embedded as an empty record). -/
def oaMapGet (m : OaPendingMap) (i : Nat) : OaPending :=
  ((m.find? (fun p => p.1 == i)).map Prod.snd).getD ⟨"", "", ""⟩

/-- `pendingToolCalls.set(index, v)`: update in place, or append. -/
def oaMapSet (m : OaPendingMap) (i : Nat) (v : OaPending) : OaPendingMap :=
  if oaMapHas m i then
    m.map (fun p => if p.1 == i then (i, v) else p)
  else m ++ [(i, v)]

/-- The mutable state of one OpenAI `makeStreamingRequest` stream loop. -/
structure OaState where
  fullResponse : String
  inputTokens : Nat
  outputTokens : Nat
  pendingToolCalls : OaPendingMap
  finishReason : String
  trace : List Callback
deriving Repr

/-- The `if (!pendingToolCalls.has(index))` paragraph of the tool-call
delta loop: create the pending record and announce a `load_file` call. -/
def oaEnsurePending (s : OaState) (index : Nat) (tc : OaToolCallDelta) :
    OaState :=
  if oaMapHas s.pendingToolCalls index then s
  else
    let s := { s with pendingToolCalls :=
      s.pendingToolCalls ++ [(index, ⟨jsOrEmpty tc.id, jsOrEmpty tc.name, ""⟩)] }
    if tc.name = some "load_file" then
      { s with trace := s.trace ++ [.onFileLoad (some "Loading file...")] }
    else s

/-- The `if (toolCall.id) ... if (toolCall.function?.name)` updates of the
pending record. -/
def oaUpdatePending (pending : OaPending) (tc : OaToolCallDelta) : OaPending :=
  let pending := match tc.id with
    | some i => if i ≠ "" then { pending with id := i } else pending
    | none => pending
  match tc.name with
  | some n => if n ≠ "" then { pending with name := n } else pending
  | none => pending

/-- The `if (toolCall.function?.arguments)` paragraph: append the delta,
write the pending record back, and show `load_file` progress when the
accumulated text parses. -/
def oaApplyArgs (jparse : JParse) (s : OaState) (index : Nat)
    (pending : OaPending) (tc : OaToolCallDelta) : OaState :=
  match tc.args with
  | some a =>
    if a ≠ "" then
      let pending := { pending with arguments := pending.arguments ++ a }
      let s :=
        { s with pendingToolCalls := oaMapSet s.pendingToolCalls index pending }
      if pending.name = "load_file" then
        match jparse pending.arguments with
        | .ok input =>
          match input.path with
          | some p =>
            if p ≠ "" then
              { s with trace := s.trace ++ [.onFileLoad (some p)] }
            else s
          | none => s
        | .error _ => s
      else s
    else
      { s with pendingToolCalls := oaMapSet s.pendingToolCalls index pending }
  | none =>
    { s with pendingToolCalls := oaMapSet s.pendingToolCalls index pending }

/-- Processing of one element of a `delta.tool_calls` array
(`openai.ts`, the `for (const toolCall of delta.tool_calls)` body). -/
def oaToolCallStep (jparse : JParse) (s : OaState) (tc : OaToolCallDelta) :
    OaState :=
  let index := tc.index.getD 0
  let s := oaEnsurePending s index tc
  let pending := oaUpdatePending (oaMapGet s.pendingToolCalls index) tc
  oaApplyArgs jparse s index pending tc

/-- The `if (delta.content)` paragraph: forward the text delta. -/
def oaApplyContent (s : OaState) (c : Option String) : OaState :=
  match c with
  | some cc =>
    if cc ≠ "" then
      { s with fullResponse := s.fullResponse ++ cc,
               trace := s.trace ++ [.onToken cc] }
    else s
  | none => s

/-- The `if (delta.tool_calls)` paragraph: fold the tool-call deltas. -/
def oaApplyToolCalls (jparse : JParse) (s : OaState)
    (tcs : Option (List OaToolCallDelta)) : OaState :=
  match tcs with
  | some l => l.foldl (oaToolCallStep jparse) s
  | none => s

/-- The `if (delta)` paragraph of the chunk handler. -/
def oaApplyDelta (jparse : JParse) (s : OaState) (d : Option OaDelta) :
    OaState :=
  match d with
  | some dd => oaApplyToolCalls jparse (oaApplyContent s dd.content) dd.toolCalls
  | none => s

/-- The finish-reason paragraph of the chunk handler. -/
def oaApplyFinish (s : OaState) (f : Option String) : OaState :=
  match f with
  | some r => if r ≠ "" then { s with finishReason := r } else s
  | none => s

/-- The usage paragraph of the chunk handler: overwrite both counters. -/
def oaApplyUsage (s : OaState) (u : Option OaUsage) : OaState :=
  match u with
  | some u =>
    { s with inputTokens := u.promptTokens.getD 0,
             outputTokens := u.completionTokens.getD 0 }
  | none => s

/-- One step of the OpenAI stream loop on one parsed chunk: the delta,
finish-reason and usage paragraphs in source order. -/
def oaStep (jparse : JParse) (s : OaState) (e : OaEvent) : OaState :=
  oaApplyUsage (oaApplyFinish (oaApplyDelta jparse s e.delta) e.finishReason)
    e.usage

/-- The accumulator parameters of the recursive OpenAI
`makeStreamingRequest`. -/
structure OaCarry where
  inputTokens : Nat
  outputTokens : Nat
  accumulatedResponse : String
deriving Repr, DecidableEq

/-- The stream-loop local state at entry of one OpenAI round. -/
def oaInitState (c : OaCarry) : OaState :=
  { fullResponse := c.accumulatedResponse, inputTokens := c.inputTokens,
    outputTokens := c.outputTokens, pendingToolCalls := [],
    finishReason := "", trace := [] }

/-- Folding the OpenAI stream loop over a list of parsed chunks. -/
def oaFold (jparse : JParse) (s : OaState) (events : List OaEvent) : OaState :=
  events.foldl (oaStep jparse) s

/-- Resolution of one pending OpenAI `load_file` call.  The whole body,
including `JSON.parse` of the accumulated arguments, sits in one `try`
whose `catch` reports `onFileLoaded(toolCall.arguments, false)` — the raw
argument text, since the parsed `path` is out of scope there. -/
def oaResolveCall (jparse : JParse) (loader : Loader) (tc : OaPending) :
    String × List Callback :=
  match jparse tc.arguments with
  | .error m =>
    ("Error loading file: " ++ m, [.onFileLoaded (some tc.arguments) false])
  | .ok input =>
    let path := input.path
    let pre := [Callback.onFileLoad path]
    match loader path with
    | .files fs =>
      match fs.head? with
      | some file =>
        if ¬ strStartsWith file.content "[Error" then
          ("File: " ++ file.path ++ "\n\n" ++ file.content,
           pre ++ [.onFileLoaded path true])
        else
          (loadFileErrorText path, pre ++ [.onFileLoaded path false])
      | none =>
        (loadFileErrorText path, pre ++ [.onFileLoaded path false])
    | .throws m =>
      (loadFileThrowText m, pre ++ [.onFileLoaded (some tc.arguments) false])

/-- Callback trace of the OpenAI tool-resolution loop, iterating the map
values in insertion order. -/
def oaResolveAll (jparse : JParse) (loader : Loader) :
    List (Nat × OaPending) → List Callback
  | [] => []
  | (_, tc) :: rest =>
    (if tc.name = "load_file" then (oaResolveCall jparse loader tc).2 else []) ++
      oaResolveAll jparse loader rest

/-- The recursive OpenAI `makeStreamingRequest` over the network rounds. -/
def oaRun (jparse : JParse) (loader? : Option Loader) (modelId : String) :
    List (Round OaEvent) → OaCarry → List Callback × Option JsExn
  | [], _ => ([], none)
  | .httpError status m :: _, _ =>
    ([], some (.failure (jsOr m ("API error: " ++ toString status))))
  | .noBody :: _, _ => ([], some (.failure "No response body"))
  | .interrupted events exn :: _, carry =>
    ((oaFold jparse (oaInitState carry) events).trace, some exn)
  | .completed events :: rest, carry =>
    let s := oaFold jparse (oaInitState carry) events
    if s.finishReason = "tool_calls" ∧ s.pendingToolCalls ≠ [] ∧
        loader?.isSome then
      let loader := loader?.getD (fun _ => .files [])
      let resTrace := oaResolveAll jparse loader s.pendingToolCalls
      let (t, e) := oaRun jparse loader? modelId rest
        ⟨s.inputTokens, s.outputTokens, s.fullResponse⟩
      (s.trace ++ resTrace ++ t, e)
    else
      let usageTrace :=
        if s.inputTokens > 0 ∨ s.outputTokens > 0 then
          [Callback.onUsage ⟨s.inputTokens, s.outputTokens, 0,
            calculateCost s.inputTokens s.outputTokens modelId 0⟩]
        else []
      (s.trace ++ usageTrace ++ [.onComplete s.fullResponse], none)

/-- `sendMessage` of `lib/providers/openai.ts`. -/
def oaSendMessage (jparse : JParse) (loader? : Option Loader)
    (modelId : String) (rounds : List (Round OaEvent)) : List Callback :=
  let (t, e) := oaRun jparse loader? modelId rounds ⟨0, 0, ""⟩
  Callback.onStart :: (t ++ match e with
    | none => []
    | some .abort => []
    | some (.failure m) => [.onError m]
    | some .nonError => [.onError "Failed to send message"])

/-! ### Gemini adapter (`lib/providers/gemini.ts`) -/

/-- A `functionCall` part: its `name` and the `path` field of its `args`
object (`funcCall.args || \x7b\x7d` makes a missing object behave as one
with no `path`). -/
structure GFunctionCall where
  name : Option String
  argsPath : Option String
deriving Repr, DecidableEq

/-- One element of `candidates[0].content.parts`. -/
structure GPart where
  text : Option String
  functionCall : Option GFunctionCall
deriving Repr, DecidableEq

/-- The `usageMetadata` payload of a chunk. -/
structure GUsage where
  promptTokenCount : Option Nat
  candidatesTokenCount : Option Nat
deriving Repr, DecidableEq

/-- One parsed Gemini stream chunk as the adapter reads it (a chunk with no
`candidates[0]` has `parts := none` and `finishReason := none`). -/
structure GEvent where
  parts : Option (List GPart)
  finishReason : Option String
  usageMetadata : Option GUsage
deriving Repr, DecidableEq

/-- The mutable state of one Gemini `makeStreamingRequest` stream loop. -/
structure GState where
  fullResponse : String
  inputTokens : Nat
  outputTokens : Nat
  pendingFunctionCalls : List GFunctionCall
  finishReason : String
  trace : List Callback
deriving Repr

/-- The `if (part.text)` paragraph of the part handler. -/
def gApplyText (s : GState) (t : Option String) : GState :=
  match t with
  | some tt =>
    if tt ≠ "" then
      { s with fullResponse := s.fullResponse ++ tt,
               trace := s.trace ++ [.onToken tt] }
    else s
  | none => s

/-- The `if (part.functionCall)` paragraph: queue the pending call and
announce a `load_file` call with its path (or a placeholder). -/
def gApplyFunctionCall (s : GState) (fc? : Option GFunctionCall) : GState :=
  match fc? with
  | some fc =>
    let s := { s with pendingFunctionCalls := s.pendingFunctionCalls ++ [fc] }
    if fc.name = some "load_file" then
      { s with trace := s.trace ++
          [.onFileLoad (some (jsOr fc.argsPath "Loading file..."))] }
    else s
  | none => s

/-- Processing of one content part
(`gemini.ts`, the `for (const part of parts)` body). -/
def gPartStep (s : GState) (part : GPart) : GState :=
  gApplyFunctionCall (gApplyText s part.text) part.functionCall

/-- The candidate-parts paragraph of the chunk handler. -/
def gApplyParts (s : GState) (parts : Option (List GPart)) : GState :=
  match parts with
  | some ps => ps.foldl gPartStep s
  | none => s

/-- The finish-reason paragraph of the chunk handler. -/
def gApplyFinish (s : GState) (f : Option String) : GState :=
  match f with
  | some r => if r ≠ "" then { s with finishReason := r } else s
  | none => s

/-- The usage paragraph of the chunk handler: latest truthy value wins. -/
def gApplyUsage (s : GState) (u : Option GUsage) : GState :=
  match u with
  | some u =>
    let s := match u.promptTokenCount with
      | some n => if n ≠ 0 then { s with inputTokens := n } else s
      | none => s
    match u.candidatesTokenCount with
    | some n => if n ≠ 0 then { s with outputTokens := n } else s
    | none => s
  | none => s

/-- One step of the Gemini stream loop on one parsed chunk: the candidate
(parts and finish reason) and usage paragraphs in source order. -/
def gStep (s : GState) (e : GEvent) : GState :=
  gApplyUsage (gApplyFinish (gApplyParts s e.parts) e.finishReason)
    e.usageMetadata

/-- The accumulator parameters of the recursive Gemini
`makeStreamingRequest`. -/
structure GCarry where
  inputTokens : Nat
  outputTokens : Nat
  accumulatedResponse : String
deriving Repr, DecidableEq

/-- The stream-loop local state at entry of one Gemini round. -/
def gInitState (c : GCarry) : GState :=
  { fullResponse := c.accumulatedResponse, inputTokens := c.inputTokens,
    outputTokens := c.outputTokens, pendingFunctionCalls := [],
    finishReason := "", trace := [] }

/-- Folding the Gemini stream loop over a list of parsed chunks. -/
def gFold (s : GState) (events : List GEvent) : GState :=
  events.foldl gStep s

/-- Resolution of one pending Gemini `load_file` call (here the `path`
constant is declared before the `try`, so the `catch` still reports the
requested path). -/
def gResolveCall (loader : Loader) (fc : GFunctionCall) :
    String × List Callback :=
  let path := fc.argsPath
  let pre := [Callback.onFileLoad path]
  match loader path with
  | .files fs =>
    match fs.head? with
    | some file =>
      if ¬ strStartsWith file.content "[Error" then
        ("File: " ++ file.path ++ "\n\n" ++ file.content,
         pre ++ [.onFileLoaded path true])
      else
        (loadFileErrorText path, pre ++ [.onFileLoaded path false])
    | none =>
      (loadFileErrorText path, pre ++ [.onFileLoaded path false])
  | .throws m =>
    (loadFileThrowText m, pre ++ [.onFileLoaded path false])

/-- Callback trace of the Gemini function-resolution loop. -/
def gResolveAll (loader : Loader) : List GFunctionCall → List Callback
  | [] => []
  | fc :: rest =>
    (if fc.name = some "load_file" then (gResolveCall loader fc).2 else []) ++
      gResolveAll loader rest

/-- The recursive Gemini `makeStreamingRequest` over the network rounds.
Continuation requires only a nonempty pending list and a supplied loader
(the finish reason is not consulted). -/
def gRun (loader? : Option Loader) (modelId : String) :
    List (Round GEvent) → GCarry → List Callback × Option JsExn
  | [], _ => ([], none)
  | .httpError status m :: _, _ =>
    ([], some (.failure (jsOr m ("API error: " ++ toString status))))
  | .noBody :: _, _ => ([], some (.failure "No response body"))
  | .interrupted events exn :: _, carry =>
    ((gFold (gInitState carry) events).trace, some exn)
  | .completed events :: rest, carry =>
    let s := gFold (gInitState carry) events
    if s.pendingFunctionCalls ≠ [] ∧ loader?.isSome then
      let loader := loader?.getD (fun _ => .files [])
      let resTrace := gResolveAll loader s.pendingFunctionCalls
      let (t, e) := gRun loader? modelId rest
        ⟨s.inputTokens, s.outputTokens, s.fullResponse⟩
      (s.trace ++ resTrace ++ t, e)
    else
      let usageTrace :=
        if s.inputTokens > 0 ∨ s.outputTokens > 0 then
          [Callback.onUsage ⟨s.inputTokens, s.outputTokens, 0,
            calculateCost s.inputTokens s.outputTokens modelId 0⟩]
        else []
      (s.trace ++ usageTrace ++ [.onComplete s.fullResponse], none)

/-- The `onError` emission of the Gemini top-level `catch`: messages
mentioning `blocked` or `safety` are replaced by a canned text. -/
def gErrorTrace (m : String) : List Callback :=
  if strIncludes m "blocked" || strIncludes m "safety" then
    [.onError "Response was blocked by safety filters. Try rephrasing your question."]
  else [.onError m]

/-- `sendMessage` of `lib/providers/gemini.ts`. -/
def gSendMessage (loader? : Option Loader) (modelId : String)
    (rounds : List (Round GEvent)) : List Callback :=
  let (t, e) := gRun loader? modelId rounds ⟨0, 0, ""⟩
  Callback.onStart :: (t ++ match e with
    | none => []
    | some .abort => []
    | some (.failure m) => gErrorTrace m
    | some .nonError => gErrorTrace "Failed to send message")

/-! ## Claim C6: cost calculation -/

/-- Cost formula for a model id present in the catalog. -/
theorem calculateCost_known {modelId : String} {m : ModelDefinition}
    (h : getModelById modelId = some m) (i o w : ℚ) :
    calculateCost i o modelId w =
      i / 1000000 * m.inputCostPerMillion +
      o / 1000000 * m.outputCostPerMillion + w * (1 / 100) := by
  simp only [calculateCost, h, WEB_SEARCH_COST]
  norm_num

/-- Claim C6: for every catalog model, `calculateCost 1000000 0 id 0` is
exactly the model's `inputCostPerMillion`; an unknown model id yields cost
`0` for any token and search counts; and for a known model the cost is the
linear formula `in/1e6 * inCost + out/1e6 * outCost + searches * 0.01`. -/
theorem calculateCost_spec :
    (∀ m ∈ MODELS, calculateCost 1000000 0 m.id 0 = m.inputCostPerMillion) ∧
    (∀ modelId, getModelById modelId = none →
      ∀ i o w : ℚ, calculateCost i o modelId w = 0) ∧
    (∀ modelId m, getModelById modelId = some m →
      ∀ i o w : ℚ, calculateCost i o modelId w =
        i / 1000000 * m.inputCostPerMillion +
        o / 1000000 * m.outputCostPerMillion + w * (1 / 100)) := by
  refine ⟨?_, ?_, ?_⟩
  · intro m hm
    fin_cases hm
    · exact (@calculateCost_known "claude-haiku-4-5-20251001" _ rfl
        1000000 0 0).trans (by norm_num)
    · exact (@calculateCost_known "claude-sonnet-4-5-20250929" _ rfl
        1000000 0 0).trans (by norm_num)
    · exact (@calculateCost_known "gpt-5-nano" _ rfl
        1000000 0 0).trans (by norm_num)
    · exact (@calculateCost_known "gpt-5-mini" _ rfl
        1000000 0 0).trans (by norm_num)
    · exact (@calculateCost_known "gemini-3-flash-preview" _ rfl
        1000000 0 0).trans (by norm_num)
    · exact (@calculateCost_known "gemini-3-pro-preview" _ rfl
        1000000 0 0).trans (by norm_num)
  · intro modelId h i o w
    simp [calculateCost, h]
  · intro modelId m h i o w
    exact calculateCost_known h i o w

/-- Witness for C6 at concrete inputs. -/
theorem calculateCost_spec_witness :
    getModelById "no-such-model" = none ∧
    calculateCost 12 34 "no-such-model" 2 = 0 :=
  ⟨rfl, calculateCost_spec.2.1 "no-such-model" rfl 12 34 2⟩

/-! ## Claim C10: selected model belongs to its provider -/

/-- A stored model id accepted by the `models.some(m => m.id === saved)`
check of `getSelectedModel` resolves in the catalog to a model of that
provider. -/
theorem any_id_getModelById {p : Provider} {saved : String}
    (h : (getModelsForProvider p).any (fun m => m.id == saved) = true) :
    (getModelById saved).map (fun m => m.provider) = some p := by
  rw [List.any_eq_true] at h
  obtain ⟨m, hm, hid⟩ := h
  rw [beq_iff_eq] at hid
  subst hid
  rw [getModelsForProvider, List.mem_filter] at hm
  obtain ⟨hmem, hprov⟩ := hm
  rw [beq_iff_eq] at hprov
  subst hprov
  fin_cases hmem <;> rfl

/-- Claim C10: `getSelectedModel` always returns the id of a model of the
requested provider — a stored value that is not one of the provider's
catalog ids is ignored in favor of the cheap-tier default. -/
theorem getSelectedModel_matches_provider (st : Storage) (p : Provider) :
    (getModelById (getSelectedModel st p)).map (fun m => m.provider) = some p := by
  unfold getSelectedModel
  split
  · split
    · next hc => exact any_id_getModelById hc.2
    · cases p <;> rfl
  · cases p <;> rfl

/-! ## Claim C4: active-provider invariant and switching -/

/-- The fallback `getActiveProvider` computes when the saved selection is
missing or has no configured key: the first provider with a key, else
`anthropic`. -/
def firstProviderWithKey (st : Storage) : Provider :=
  match getAllProviders.find?
      (fun p => jsTruthy (st.getItem (PROVIDERS p).storageKey)) with
  | some p => p
  | none => .anthropic

/-- A saved selection accepted by the early-return branch has a truthy
stored key. -/
theorem activeFromSaved_hasKey {st : Storage} {p : Provider}
    (h : activeFromSaved st = some p) :
    jsTruthy (st.getItem (PROVIDERS p).storageKey) = true := by
  unfold activeFromSaved at h
  split at h
  · split at h
    · split at h
      · cases h
        assumption
      · cases h
    · cases h
  · cases h

/-- Claim C4 (amended): in every storage state the provider
`getActiveProvider` reports has a truthy stored key, except that when no
provider has a key it reports `anthropic`; and `setActiveProvider` stores
the selection unconditionally, so after switching to provider `p` the
observed active provider is `p` when `p` has a key and otherwise the
fallback (first provider with a key, else `anthropic`) — which may differ
from the previously observed active provider. -/
theorem activeProvider_amended :
    (∀ st : Storage, hasApiKey st (getActiveProvider st) = true ∨
      ((∀ p, hasApiKey st p = false) ∧
        getActiveProvider st = Provider.anthropic)) ∧
    (∀ (st : Storage) (p : Provider),
      getActiveProvider (setActiveProvider st p) =
        if hasApiKey st p then p else firstProviderWithKey st) := by
  constructor
  · intro st
    unfold getActiveProvider
    cases ha : activeFromSaved st with
    | some q =>
      left
      exact activeFromSaved_hasKey ha
    | none =>
      cases hf : getAllProviders.find?
          (fun p => jsTruthy (st.getItem (PROVIDERS p).storageKey)) with
      | some q =>
        left
        exact List.find?_some hf
      | none =>
        right
        refine ⟨fun p => ?_, rfl⟩
        have hall := List.find?_eq_none.mp hf
        have hx := hall p (by cases p <;> simp [getAllProviders])
        simpa [hasApiKey, getApiKey] using hx
  · intro st p
    have hkeys : ∀ q : Provider,
        Storage.getItem (setActiveProvider st p) (PROVIDERS q).storageKey =
          Storage.getItem st (PROVIDERS q).storageKey := by
      intro q
      cases q <;> cases p <;> rfl
    have hget : Storage.getItem (setActiveProvider st p) ACTIVE_PROVIDER_KEY =
        some p.asString := by
      cases p <;> rfl
    have hps : providerOfString p.asString = some p := by cases p <;> rfl
    have hsaved : activeFromSaved (setActiveProvider st p) =
        (if hasApiKey st p then some p else none) := by
      unfold activeFromSaved
      simp only [hget, hps, hkeys p]
      rfl
    unfold getActiveProvider firstProviderWithKey
    rw [hsaved]
    simp only [hkeys]
    by_cases hk : hasApiKey st p = true
    · simp only [if_pos hk]
    · simp only [if_neg hk]

/-- Witness for C4 (amended) at a concrete state: with only an `openai` key
stored, switching to `anthropic` (no key) makes the observed active
provider fall back to `openai`. -/
theorem activeProvider_amended_witness :
    hasApiKey (fun k => if k = "brain_openai_api_key" then some "sk-x" else none)
      Provider.anthropic = false ∧
    getActiveProvider (setActiveProvider
      (fun k => if k = "brain_openai_api_key" then some "sk-x" else none)
      Provider.anthropic) = Provider.openai := by
  have h := activeProvider_amended.2
    (fun k => if k = "brain_openai_api_key" then some "sk-x" else none)
    Provider.anthropic
  refine ⟨by decide, ?_⟩
  rw [h]
  decide

/-- The storage state of the C4 counterexample: keys stored for `anthropic`
and `openai`, active provider `openai`. -/
def c4Store : Storage := fun k =>
  if k = "brain_anthropic_api_key" then some "key-a"
  else if k = "brain_openai_api_key" then some "key-b"
  else if k = "brain_api_provider" then some "openai"
  else none

/-- Claim C4 counterexample: switching the active provider to `gemini`,
which has no stored key, changes the observed active provider from
`openai` to `anthropic` — the selection is not rejected/ignored. -/
theorem activeProvider_counterexample :
    getActiveProvider c4Store = Provider.openai ∧
    hasApiKey c4Store Provider.gemini = false ∧
    getActiveProvider (setActiveProvider c4Store Provider.gemini) =
      Provider.anthropic ∧
    Provider.anthropic ≠ Provider.openai := by decide

/-! ## Claim C8: key-validation status mapping -/

/-- Claim C8 (amended): per-adapter mapping of the validation request
outcome.  A 2xx response is valid for all three adapters.  Anthropic maps
401 to "Invalid API key" and 403 to "API key lacks required permissions";
OpenAI maps only 401 (403 falls through to the generic handling); Gemini
maps 400 and 403 (401 falls through).  Any other non-2xx response yields
the vendor message when truthy, else "API error: <status>"; a network
failure yields valid false with the exception message (or "Failed to
validate key"), never a thrown exception. -/
theorem validateKey_amended :
    (∀ (status : Nat) (m : Option String), httpOk status = true →
      anthropicValidateKey (.response status m) = ⟨true, none⟩ ∧
      openaiValidateKey (.response status m) = ⟨true, none⟩ ∧
      geminiValidateKey (.response status m) = ⟨true, none⟩) ∧
    (∀ m, anthropicValidateKey (.response 401 m) =
        ⟨false, some "Invalid API key"⟩ ∧
      anthropicValidateKey (.response 403 m) =
        ⟨false, some "API key lacks required permissions"⟩ ∧
      openaiValidateKey (.response 401 m) = ⟨false, some "Invalid API key"⟩ ∧
      geminiValidateKey (.response 400 m) = ⟨false, some "Invalid API key"⟩ ∧
      geminiValidateKey (.response 403 m) = ⟨false, some "Invalid API key"⟩) ∧
    (∀ m, openaiValidateKey (.response 403 m) =
        ⟨false, some (jsOr m ("API error: " ++ toString 403))⟩ ∧
      geminiValidateKey (.response 401 m) =
        ⟨false, some (jsOr m ("API error: " ++ toString 401))⟩) ∧
    (∀ (status : Nat) (m : Option String), httpOk status = false →
      status ≠ 400 → status ≠ 401 → status ≠ 403 →
      anthropicValidateKey (.response status m) =
        ⟨false, some (jsOr m ("API error: " ++ toString status))⟩ ∧
      openaiValidateKey (.response status m) =
        ⟨false, some (jsOr m ("API error: " ++ toString status))⟩ ∧
      geminiValidateKey (.response status m) =
        ⟨false, some (jsOr m ("API error: " ++ toString status))⟩) ∧
    (∀ m, anthropicValidateKey (.networkFailure m) =
        ⟨false, some (match m with
          | some s => s
          | none => "Failed to validate key")⟩ ∧
      openaiValidateKey (.networkFailure m) =
        ⟨false, some (match m with
          | some s => s
          | none => "Failed to validate key")⟩ ∧
      geminiValidateKey (.networkFailure m) =
        ⟨false, some (match m with
          | some s => s
          | none => "Failed to validate key")⟩) := by
  refine ⟨?_, ?_, ?_, ?_, ?_⟩
  · intro status m h
    refine ⟨?_, ?_, ?_⟩ <;>
      simp [anthropicValidateKey, openaiValidateKey, geminiValidateKey, h]
  · intro m
    refine ⟨?_, ?_, ?_, ?_, ?_⟩ <;>
      simp [anthropicValidateKey, openaiValidateKey, geminiValidateKey, httpOk]
  · intro m
    refine ⟨?_, ?_⟩ <;>
      simp [openaiValidateKey, geminiValidateKey, httpOk]
  · intro status m h h400 h401 h403
    refine ⟨?_, ?_, ?_⟩ <;>
      simp [anthropicValidateKey, openaiValidateKey, geminiValidateKey,
        h, h400, h401, h403]
  · intro m
    refine ⟨?_, ?_, ?_⟩ <;> rfl

/-- Witness for C8 (amended) at status 500 with no vendor message. -/
theorem validateKey_amended_witness :
    httpOk 500 = false ∧
    anthropicValidateKey (.response 500 none) =
      ⟨false, some (jsOr none ("API error: " ++ toString 500))⟩ :=
  ⟨by decide,
   (validateKey_amended.2.2.2.1 500 none (by decide) (by decide) (by decide)
     (by decide)).1⟩

/-- Claim C8 counterexample: OpenAI does not map 403 to an invalid-key
result, and Gemini does not map 401 — both fall through to the generic
"API error: <status>" result. -/
theorem validateKey_counterexample :
    openaiValidateKey (.response 403 none) =
      { valid := false, error := some "API error: 403" } ∧
    geminiValidateKey (.response 401 none) =
      { valid := false, error := some "API error: 401" } ∧
    (some "API error: 403" ≠ some "Invalid API key" ∧
      some "API error: 401" ≠ some "Invalid API key") := by decide

/-! ## Claim C9: date sort key of the system-prompt directory listing -/

instance : IsTotal String byDateDesc :=
  ⟨fun a b => le_total (extractDateFromPath b) (extractDateFromPath a)⟩

instance : IsTrans String byDateDesc :=
  ⟨fun _ _ _ hab hbc => le_trans hbc hab⟩

/-- Claim C9 (amended): the per-folder example ordering of
`buildSystemPrompt` sorts by `extractDateFromPath` of the full path
descending (a stable permutation of the folder's files), and a path that
contains no eight-digit substring gets sort key `0`.  The key is extracted
from the whole path, not from the filename alone. -/
theorem sortFilesInDir_amended :
    (∀ dirPaths : List String,
      List.Pairwise (fun a b => extractDateFromPath b ≤ extractDateFromPath a)
        (sortFilesInDir dirPaths) ∧
      (sortFilesInDir dirPaths).Perm dirPaths) ∧
    (∀ path : String, firstEightDigitRun path.data = none →
      extractDateFromPath path = 0) := by
  refine ⟨fun dirPaths => ⟨?_, ?_⟩, fun path h => ?_⟩
  · exact List.sorted_insertionSort byDateDesc dirPaths
  · exact List.perm_insertionSort byDateDesc dirPaths
  · unfold extractDateFromPath
    rw [h]

/-- Witness for C9 (amended) at concrete inputs. -/
theorem sortFilesInDir_amended_witness :
    firstEightDigitRun "notes/plain.md".data = none ∧
    extractDateFromPath "notes/plain.md" = 0 ∧
    List.Pairwise (fun a b => extractDateFromPath b ≤ extractDateFromPath a)
      (sortFilesInDir ["a20230101.md", "b20240202.md"]) :=
  ⟨by decide, sortFilesInDir_amended.2 "notes/plain.md" (by decide),
   (sortFilesInDir_amended.1 ["a20230101.md", "b20240202.md"]).1⟩

/-- Claim C9 counterexample: in a folder whose directory name carries an
eight-digit date, a file whose filename has no date does not sort with key
`0` — its key is taken from the directory part of the path, so the claimed
filename-based order (the dated filename first) is not produced. -/
theorem dateKey_counterexample :
    extractDateFromPath "20240101dir/b.md" = 20240101 ∧
    extractDateFromPath "b.md" = 0 ∧
    extractDateFromPath "20240101dir/a20230505.md" = 20240101 ∧
    sortFilesInDir ["20240101dir/b.md", "20240101dir/a20230505.md"] =
      ["20240101dir/b.md", "20240101dir/a20230505.md"] ∧
    ["20240101dir/b.md", "20240101dir/a20230505.md"] ≠
      ["20240101dir/a20230505.md", "20240101dir/b.md"] := by decide

/-! ## Claim C7: relevance discovery for the Ethan query -/

instance : IsTotal ScoredFile byRecency := by
  constructor
  intro a b
  rcases lt_trichotomy a.date b.date with h | h | h
  · exact Or.inr (Or.inl h)
  · rcases le_total b.score a.score with hs | hs
    · exact Or.inl (Or.inr ⟨h.symm, hs⟩)
    · exact Or.inr (Or.inr ⟨h, hs⟩)
  · exact Or.inl (Or.inl h)

instance : IsTrans ScoredFile byRecency := by
  constructor
  intro a b c hab hbc
  rcases hab with h1 | ⟨h1, s1⟩ <;> rcases hbc with h2 | ⟨h2, s2⟩
  · exact Or.inl (h2.trans h1)
  · exact Or.inl (h2 ▸ h1)
  · exact Or.inl (h1 ▸ h2)
  · exact Or.inr ⟨h2.trans h1, s2.trans s1⟩

instance : IsTotal ScoredFile byScore := by
  constructor
  intro a b
  rcases lt_trichotomy a.score b.score with h | h | h
  · exact Or.inr (Or.inl h)
  · rcases le_total b.date a.date with hs | hs
    · exact Or.inl (Or.inr ⟨h.symm, hs⟩)
    · exact Or.inr (Or.inr ⟨h, hs⟩)
  · exact Or.inl (Or.inl h)

instance : IsTrans ScoredFile byScore := by
  constructor
  intro a b c hab hbc
  rcases hab with h1 | ⟨h1, s1⟩ <;> rcases hbc with h2 | ⟨h2, s2⟩
  · exact Or.inl (h2.trans h1)
  · exact Or.inl (h2 ▸ h1)
  · exact Or.inl (h1 ▸ h2)
  · exact Or.inr ⟨h2.trans h1, s2.trans s1⟩

/-- Every path collected by `searchTreeForKeywords` passed the folder
test. -/
theorem mem_searchTreeForKeywords (fps : List String)
    (nodes : List FileNode) (p : String)
    (hp : p ∈ searchTreeForKeywords fps nodes) :
    matchesFolder fps p = true := by
  induction nodes using searchTreeForKeywords.induct fps with
  | case1 =>
    rw [searchTreeForKeywords] at hp
    cases hp
  | case2 name path rest ih =>
    rw [searchTreeForKeywords, List.mem_append] at hp
    rcases hp with hp | hp
    · by_cases hc : (matchesFolder fps path && strEndsWith name ".md") = true
      · rw [if_pos hc] at hp
        rcases List.mem_singleton.mp hp with rfl
        exact (Bool.and_eq_true _ _ |>.mp hc).1
      · rw [if_neg hc] at hp
        cases hp
    · exact ih hp
  | case3 name path children rest ih1 ih2 =>
    rw [searchTreeForKeywords, List.mem_append] at hp
    rcases hp with hp | hp
    · exact ih1 hp
    · exact ih2 hp

/-- Unfolding of `findRelevantFiles` as the composition of its source
stages. -/
theorem findRelevantFiles_eq (query : String) (tree : List FileNode)
    (n : Nat) :
    findRelevantFiles query tree n =
      if (extractKeywords query).isEmpty then [] else
      ((if wantsRecentQuery (toLowerStr query) then
          List.insertionSort byRecency
            ((searchTreeForKeywords (extractKeywords query) tree).map
              (fun path => ScoredFile.mk path
                (scoreFor (extractKeywords query) path)
                (extractDateFromPath path)))
        else
          List.insertionSort byScore
            ((searchTreeForKeywords (extractKeywords query) tree).map
              (fun path => ScoredFile.mk path
                (scoreFor (extractKeywords query) path)
                (extractDateFromPath path)))).take n).map
        (fun s => s.path) := rfl

/-- Claim C7: discovery for the query about Ethan returns only paths whose
lowered form extends the folder `research/newsletters/ethan`, sorted by
embedded date descending, and at most five of them; and any query matching
no known source alias yields the empty list. -/
theorem findRelevantFiles_ethan (tree : List FileNode) :
    (∀ p ∈ findRelevantFiles "What\x27s new from Ethan recently?" tree 5,
      strStartsWith (toLowerStr p) "research/newsletters/ethan" = true) ∧
    List.Pairwise (fun a b => extractDateFromPath b ≤ extractDateFromPath a)
      (findRelevantFiles "What\x27s new from Ethan recently?" tree 5) ∧
    (findRelevantFiles "What\x27s new from Ethan recently?" tree 5).length ≤ 5 ∧
    (∀ (query : String) (tree' : List FileNode) (n : Nat),
      extractKeywords query = [] → findRelevantFiles query tree' n = []) := by
  have hkw : extractKeywords "What\x27s new from Ethan recently?" =
      ["research/newsletters/ethan"] := by decide
  have hwr :
      wantsRecentQuery (toLowerStr "What\x27s new from Ethan recently?") =
        true := by decide
  have hmain : findRelevantFiles "What\x27s new from Ethan recently?" tree 5 =
      ((List.insertionSort byRecency
        ((searchTreeForKeywords ["research/newsletters/ethan"] tree).map
          (fun path => ScoredFile.mk path
            (scoreFor ["research/newsletters/ethan"] path)
            (extractDateFromPath path)))).take 5).map (fun s => s.path) := by
    rw [findRelevantFiles_eq, hkw, hwr]
    rfl
  refine ⟨?_, ?_, ?_, ?_⟩
  · intro p hp
    rw [hmain] at hp
    obtain ⟨s, hs, rfl⟩ := List.mem_map.mp hp
    have hs1 : s ∈ List.insertionSort byRecency _ := List.mem_of_mem_take hs
    have hs2 := (List.perm_insertionSort byRecency _).mem_iff.mp hs1
    obtain ⟨path0, hpath0, rfl⟩ := List.mem_map.mp hs2
    have hm := mem_searchTreeForKeywords _ _ _ hpath0
    have htl : toLowerStr "research/newsletters/ethan" =
        "research/newsletters/ethan" := by decide
    simpa [matchesFolder, htl] using hm
  · rw [hmain, List.pairwise_map]
    have hsorted := List.sorted_insertionSort byRecency
      ((searchTreeForKeywords ["research/newsletters/ethan"] tree).map
        (fun path => ScoredFile.mk path
          (scoreFor ["research/newsletters/ethan"] path)
          (extractDateFromPath path)))
    have htake := hsorted.sublist (List.take_sublist 5 _)
    refine htake.imp_of_mem ?_
    intro a b ha hb hr
    have ha2 := (List.perm_insertionSort byRecency _).mem_iff.mp
      (List.mem_of_mem_take ha)
    have hb2 := (List.perm_insertionSort byRecency _).mem_iff.mp
      (List.mem_of_mem_take hb)
    obtain ⟨pa, _, rfl⟩ := List.mem_map.mp ha2
    obtain ⟨pb, _, rfl⟩ := List.mem_map.mp hb2
    rcases hr with h | ⟨heq, _⟩
    · exact le_of_lt h
    · exact le_of_eq heq
  · rw [hmain, List.length_map, List.length_take]
    exact min_le_left _ _
  · intro query tree' n h
    rw [findRelevantFiles_eq, h]
    rfl

/-- Witness for C7: a query that names no known source alias yields the
empty list. -/
theorem findRelevantFiles_ethan_witness :
    extractKeywords "hello there, how are you?" = [] ∧
    findRelevantFiles "hello there, how are you?" [] 3 = [] :=
  ⟨by decide,
   (findRelevantFiles_ethan []).2.2.2 "hello there, how are you?" [] 3
     (by decide)⟩

/-! ## Claim C5: tool-call resolution results and onFileLoaded -/

/-- Claim C5 (amended): across all three adapters, a loader result for the
requested path whose content is not error-marker-prefixed produces the tool
result `File: <path>\n\n<content>` and `onFileLoaded(path, true)`; an
error-prefixed content produces the could-not-load error text and
`onFileLoaded(path, false)`.  When the loader throws, Anthropic and Gemini
report `onFileLoaded(path, false)` with the requested path, but OpenAI's
`catch` (which also covers argument-parse failures) reports `onFileLoaded`
with the raw accumulated argument text instead of the path. -/
theorem toolResolution_amended :
    (∀ (loader : Loader) (tc : AnPending) (path content : String),
      loader tc.inputPath = .files [⟨path, content⟩] →
      (strStartsWith content "[Error" = false →
        anResolveCall loader tc =
          ("File: " ++ path ++ "\n\n" ++ content,
           [.onFileLoad tc.inputPath, .onFileLoaded tc.inputPath true])) ∧
      (strStartsWith content "[Error" = true →
        anResolveCall loader tc =
          (loadFileErrorText tc.inputPath,
           [.onFileLoad tc.inputPath, .onFileLoaded tc.inputPath false]))) ∧
    (∀ (loader : Loader) (tc : AnPending) (m : Option String),
      loader tc.inputPath = .throws m →
      anResolveCall loader tc =
        (loadFileThrowText m,
         [.onFileLoad tc.inputPath, .onFileLoaded tc.inputPath false])) ∧
    (∀ (loader : Loader) (fc : GFunctionCall) (path content : String),
      loader fc.argsPath = .files [⟨path, content⟩] →
      (strStartsWith content "[Error" = false →
        gResolveCall loader fc =
          ("File: " ++ path ++ "\n\n" ++ content,
           [.onFileLoad fc.argsPath, .onFileLoaded fc.argsPath true])) ∧
      (strStartsWith content "[Error" = true →
        gResolveCall loader fc =
          (loadFileErrorText fc.argsPath,
           [.onFileLoad fc.argsPath, .onFileLoaded fc.argsPath false]))) ∧
    (∀ (loader : Loader) (fc : GFunctionCall) (m : Option String),
      loader fc.argsPath = .throws m →
      gResolveCall loader fc =
        (loadFileThrowText m,
         [.onFileLoad fc.argsPath, .onFileLoaded fc.argsPath false])) ∧
    (∀ (jparse : JParse) (loader : Loader) (tc : OaPending)
        (input : JsonInput) (path content : String),
      jparse tc.arguments = .ok input →
      loader input.path = .files [⟨path, content⟩] →
      (strStartsWith content "[Error" = false →
        oaResolveCall jparse loader tc =
          ("File: " ++ path ++ "\n\n" ++ content,
           [.onFileLoad input.path, .onFileLoaded input.path true])) ∧
      (strStartsWith content "[Error" = true →
        oaResolveCall jparse loader tc =
          (loadFileErrorText input.path,
           [.onFileLoad input.path, .onFileLoaded input.path false]))) ∧
    (∀ (jparse : JParse) (loader : Loader) (tc : OaPending) (m : String),
      jparse tc.arguments = .error m →
      oaResolveCall jparse loader tc =
        ("Error loading file: " ++ m,
         [.onFileLoaded (some tc.arguments) false])) ∧
    (∀ (jparse : JParse) (loader : Loader) (tc : OaPending)
        (input : JsonInput) (m : Option String),
      jparse tc.arguments = .ok input →
      loader input.path = .throws m →
      oaResolveCall jparse loader tc =
        (loadFileThrowText m,
         [.onFileLoad input.path, .onFileLoaded (some tc.arguments) false])) := by
  refine ⟨?_, ?_, ?_, ?_, ?_, ?_, ?_⟩
  · intro loader tc path content hload
    constructor <;> intro h <;> simp [anResolveCall, hload, h]
  · intro loader tc m hload
    simp [anResolveCall, hload]
  · intro loader fc path content hload
    constructor <;> intro h <;> simp [gResolveCall, hload, h]
  · intro loader fc m hload
    simp [gResolveCall, hload]
  · intro jparse loader tc input path content hargs hload
    constructor <;> intro h <;> simp [oaResolveCall, hargs, hload, h]
  · intro jparse loader tc m hargs
    simp [oaResolveCall, hargs]
  · intro jparse loader tc input m hargs hload
    simp [oaResolveCall, hargs, hload]

/-- Witness for C5 (amended): success, error-marker and throwing-loader
cases at concrete inputs. -/
theorem toolResolution_amended_witness :
    ((fun _ => LoaderOutcome.files [⟨"a.md", "hello"⟩]) : Loader)
        (some "a.md") = .files [⟨"a.md", "hello"⟩] ∧
    strStartsWith "hello" "[Error" = false ∧
    anResolveCall (fun _ => .files [⟨"a.md", "hello"⟩])
        ⟨"toolu_1", "load_file", some "a.md"⟩ =
      ("File: " ++ "a.md" ++ "\n\n" ++ "hello",
       [.onFileLoad (some "a.md"), .onFileLoaded (some "a.md") true]) :=
  ⟨rfl, by decide,
   ((toolResolution_amended.1 (fun _ => .files [⟨"a.md", "hello"⟩])
      ⟨"toolu_1", "load_file", some "a.md"⟩ "a.md" "hello" rfl).1 (by decide))⟩

/-- The `JSON.parse` oracle used by the concrete OpenAI runs: the streamed
argument text parses to a `path` of `a.md`; anything else throws. -/
def oaJparseW : JParse := fun s =>
  if s = "\x7b\"path\":\"a.md\"\x7d" then .ok ⟨some "a.md", none⟩
  else .error "Unexpected token"

/-- A loader whose single call rejects. -/
def throwingLoaderW : Loader := fun _ => .throws (some "network boom")

/-- Claim C5 counterexample: for OpenAI, when the loader throws, the
`catch` branch reports `onFileLoaded` with the raw accumulated argument
text, not the requested path `a.md`. -/
theorem toolResolution_counterexample :
    oaResolveCall oaJparseW throwingLoaderW
        ⟨"call_1", "load_file", "\x7b\"path\":\"a.md\"\x7d"⟩ =
      ("Error loading file: network boom",
       [.onFileLoad (some "a.md"),
        .onFileLoaded (some "\x7b\"path\":\"a.md\"\x7d") false]) ∧
    some "\x7b\"path\":\"a.md\"\x7d" ≠ some "a.md" := by decide

/-! ## Claim C1: usage accounting across streaming rounds -/

/-- Input-token contribution of one Anthropic event
(`message_start` usage). -/
def anInputOfEvent : AnEvent → Nat
  | .messageStart (some n) => n
  | _ => 0

/-- Output-token contribution of one Anthropic event
(`message_delta` usage). -/
def anOutputOfEvent : AnEvent → Nat
  | .messageDelta (some n) _ => n
  | _ => 0

/-- Summed input-token usage reported over an Anthropic round. -/
def anInputTotal (evs : List AnEvent) : Nat := (evs.map anInputOfEvent).sum

/-- Summed output-token usage reported over an Anthropic round. -/
def anOutputTotal (evs : List AnEvent) : Nat := (evs.map anOutputOfEvent).sum

/-- Last-write-wins input-token value over an OpenAI round starting from a
carried value. -/
def oaFinalIn (evs : List OaEvent) (start : Nat) : Nat :=
  evs.foldl (fun acc e => match e.usage with
    | some u => u.promptTokens.getD 0
    | none => acc) start

/-- Last-write-wins output-token value over an OpenAI round. -/
def oaFinalOut (evs : List OaEvent) (start : Nat) : Nat :=
  evs.foldl (fun acc e => match e.usage with
    | some u => u.completionTokens.getD 0
    | none => acc) start

/-- Latest-truthy-wins input-token value over a Gemini round. -/
def gFinalIn (evs : List GEvent) (start : Nat) : Nat :=
  evs.foldl (fun acc e => match e.usageMetadata with
    | some u => match u.promptTokenCount with
      | some n => if n ≠ 0 then n else acc
      | none => acc
    | none => acc) start

/-- Latest-truthy-wins output-token value over a Gemini round. -/
def gFinalOut (evs : List GEvent) (start : Nat) : Nat :=
  evs.foldl (fun acc e => match e.usageMetadata with
    | some u => match u.candidatesTokenCount with
      | some n => if n ≠ 0 then n else acc
      | none => acc
    | none => acc) start

/-- One Anthropic event adds its reported usage onto the running totals. -/
theorem anStep_tokens (jparse : JParse) (s : AnState) (e : AnEvent) :
    (anStep jparse s e).inputTokens = s.inputTokens + anInputOfEvent e ∧
    (anStep jparse s e).outputTokens = s.outputTokens + anOutputOfEvent e := by
  cases e with
  | contentBlockStart block =>
    cases block <;> simp only [anStep, anInputOfEvent, anOutputOfEvent] <;>
      (repeat' split) <;> simp
  | contentBlockDelta delta =>
    cases delta <;> simp only [anStep, anInputOfEvent, anOutputOfEvent] <;>
      (repeat' split) <;> simp
  | contentBlockStop =>
    simp only [anStep, anInputOfEvent, anOutputOfEvent]
    (repeat' split) <;> simp
  | messageStart u =>
    cases u <;> simp [anStep, anInputOfEvent, anOutputOfEvent]
  | messageDelta u r =>
    cases u <;> cases r <;>
      simp only [anStep, anInputOfEvent, anOutputOfEvent] <;>
      (repeat' split) <;> simp
  | otherEvent => simp [anStep, anInputOfEvent, anOutputOfEvent]

/-- The per-tool-call accumulation of the OpenAI stream loop does not touch
the token counters. -/
theorem oaEnsurePending_tokens (s : OaState) (index : Nat)
    (tc : OaToolCallDelta) :
    (oaEnsurePending s index tc).inputTokens = s.inputTokens ∧
    (oaEnsurePending s index tc).outputTokens = s.outputTokens := by
  simp only [oaEnsurePending]
  (repeat' split) <;> simp

theorem oaApplyArgs_tokens (jparse : JParse) (s : OaState) (index : Nat)
    (pending : OaPending) (tc : OaToolCallDelta) :
    (oaApplyArgs jparse s index pending tc).inputTokens = s.inputTokens ∧
    (oaApplyArgs jparse s index pending tc).outputTokens = s.outputTokens := by
  simp only [oaApplyArgs]
  (repeat' split) <;> simp

theorem oaToolCallStep_tokens (jparse : JParse) (s : OaState)
    (tc : OaToolCallDelta) :
    (oaToolCallStep jparse s tc).inputTokens = s.inputTokens ∧
    (oaToolCallStep jparse s tc).outputTokens = s.outputTokens := by
  have h1 := oaEnsurePending_tokens s (tc.index.getD 0) tc
  have h2 := oaApplyArgs_tokens jparse (oaEnsurePending s (tc.index.getD 0) tc)
    (tc.index.getD 0)
    (oaUpdatePending
      (oaMapGet (oaEnsurePending s (tc.index.getD 0) tc).pendingToolCalls
        (tc.index.getD 0)) tc) tc
  exact ⟨h2.1.trans h1.1, h2.2.trans h1.2⟩

/-- Folding tool-call deltas does not touch the token counters. -/
theorem oaToolCallFold_tokens (jparse : JParse) (tcs : List OaToolCallDelta) :
    ∀ s : OaState,
      (tcs.foldl (oaToolCallStep jparse) s).inputTokens = s.inputTokens ∧
      (tcs.foldl (oaToolCallStep jparse) s).outputTokens = s.outputTokens := by
  induction tcs with
  | nil => intro s; simp
  | cons tc rest ih =>
    intro s
    have h := oaToolCallStep_tokens jparse s tc
    have h2 := ih (oaToolCallStep jparse s tc)
    simp only [List.foldl_cons]
    exact ⟨h2.1.trans h.1, h2.2.trans h.2⟩

/-- The content paragraph does not touch the token counters. -/
theorem oaApplyContent_tokens (s : OaState) (c : Option String) :
    (oaApplyContent s c).inputTokens = s.inputTokens ∧
    (oaApplyContent s c).outputTokens = s.outputTokens := by
  cases c <;> simp only [oaApplyContent] <;> (repeat' split) <;> simp

/-- The tool-call paragraph does not touch the token counters. -/
theorem oaApplyToolCalls_tokens (jparse : JParse) (s : OaState)
    (tcs : Option (List OaToolCallDelta)) :
    (oaApplyToolCalls jparse s tcs).inputTokens = s.inputTokens ∧
    (oaApplyToolCalls jparse s tcs).outputTokens = s.outputTokens := by
  cases tcs with
  | none => exact ⟨rfl, rfl⟩
  | some l => exact oaToolCallFold_tokens jparse l s

/-- The delta paragraph does not touch the token counters. -/
theorem oaApplyDelta_tokens (jparse : JParse) (s : OaState)
    (d : Option OaDelta) :
    (oaApplyDelta jparse s d).inputTokens = s.inputTokens ∧
    (oaApplyDelta jparse s d).outputTokens = s.outputTokens := by
  cases d with
  | none => exact ⟨rfl, rfl⟩
  | some dd =>
    have h1 := oaApplyContent_tokens s dd.content
    have h2 := oaApplyToolCalls_tokens jparse (oaApplyContent s dd.content)
      dd.toolCalls
    exact ⟨h2.1.trans h1.1, h2.2.trans h1.2⟩

/-- The finish-reason paragraph does not touch the token counters. -/
theorem oaApplyFinish_tokens (s : OaState) (f : Option String) :
    (oaApplyFinish s f).inputTokens = s.inputTokens ∧
    (oaApplyFinish s f).outputTokens = s.outputTokens := by
  cases f <;> simp only [oaApplyFinish] <;> (repeat' split) <;> simp

/-- One OpenAI chunk overwrites the token counters when it carries usage
and keeps them otherwise. -/
theorem oaStep_tokens (jparse : JParse) (s : OaState) (e : OaEvent) :
    (oaStep jparse s e).inputTokens =
      (match e.usage with
       | some u => u.promptTokens.getD 0
       | none => s.inputTokens) ∧
    (oaStep jparse s e).outputTokens =
      (match e.usage with
       | some u => u.completionTokens.getD 0
       | none => s.outputTokens) := by
  obtain ⟨d, f, u⟩ := e
  have h1 := oaApplyDelta_tokens jparse s d
  have h2 := oaApplyFinish_tokens (oaApplyDelta jparse s d) f
  cases u with
  | none => exact ⟨h2.1.trans h1.1, h2.2.trans h1.2⟩
  | some uu => exact ⟨rfl, rfl⟩

/-- The text paragraph does not touch the token counters. -/
theorem gApplyText_tokens (s : GState) (t : Option String) :
    (gApplyText s t).inputTokens = s.inputTokens ∧
    (gApplyText s t).outputTokens = s.outputTokens := by
  cases t <;> simp only [gApplyText] <;> (repeat' split) <;> simp

/-- The function-call paragraph does not touch the token counters. -/
theorem gApplyFunctionCall_tokens (s : GState) (fc? : Option GFunctionCall) :
    (gApplyFunctionCall s fc?).inputTokens = s.inputTokens ∧
    (gApplyFunctionCall s fc?).outputTokens = s.outputTokens := by
  cases fc? <;> simp only [gApplyFunctionCall] <;> (repeat' split) <;> simp

/-- One part does not touch the token counters. -/
theorem gPartStep_tokens (s : GState) (part : GPart) :
    (gPartStep s part).inputTokens = s.inputTokens ∧
    (gPartStep s part).outputTokens = s.outputTokens := by
  have h1 := gApplyText_tokens s part.text
  have h2 := gApplyFunctionCall_tokens (gApplyText s part.text)
    part.functionCall
  exact ⟨h2.1.trans h1.1, h2.2.trans h1.2⟩

/-- Folding parts does not touch the token counters. -/
theorem gPartsFold_tokens (ps : List GPart) :
    ∀ s : GState,
      (ps.foldl gPartStep s).inputTokens = s.inputTokens ∧
      (ps.foldl gPartStep s).outputTokens = s.outputTokens := by
  induction ps with
  | nil => intro s; exact ⟨rfl, rfl⟩
  | cons part rest ih =>
    intro s
    have h := gPartStep_tokens s part
    have h2 := ih (gPartStep s part)
    simp only [List.foldl_cons]
    exact ⟨h2.1.trans h.1, h2.2.trans h.2⟩

/-- The candidate-parts paragraph does not touch the token counters. -/
theorem gApplyParts_tokens (s : GState) (parts : Option (List GPart)) :
    (gApplyParts s parts).inputTokens = s.inputTokens ∧
    (gApplyParts s parts).outputTokens = s.outputTokens := by
  cases parts with
  | none => exact ⟨rfl, rfl⟩
  | some ps => exact gPartsFold_tokens ps s

/-- The Gemini finish-reason paragraph does not touch the token counters. -/
theorem gApplyFinish_tokens (s : GState) (f : Option String) :
    (gApplyFinish s f).inputTokens = s.inputTokens ∧
    (gApplyFinish s f).outputTokens = s.outputTokens := by
  cases f <;> simp only [gApplyFinish] <;> (repeat' split) <;> simp

/-- The Gemini usage paragraph keeps a counter unless the chunk reports a
truthy value for it. -/
theorem gApplyUsage_tokens (s : GState) (u : Option GUsage) :
    (gApplyUsage s u).inputTokens =
      (match u with
       | some uu => match uu.promptTokenCount with
         | some n => if n ≠ 0 then n else s.inputTokens
         | none => s.inputTokens
       | none => s.inputTokens) ∧
    (gApplyUsage s u).outputTokens =
      (match u with
       | some uu => match uu.candidatesTokenCount with
         | some n => if n ≠ 0 then n else s.outputTokens
         | none => s.outputTokens
       | none => s.outputTokens) := by
  cases u with
  | none => exact ⟨rfl, rfl⟩
  | some uu =>
    obtain ⟨pc, cc⟩ := uu
    cases pc <;> cases cc <;> simp only [gApplyUsage] <;>
      (repeat' split) <;> simp_all

/-- One Gemini chunk keeps each counter unless it reports a truthy value. -/
theorem gStep_tokens (s : GState) (e : GEvent) :
    (gStep s e).inputTokens =
      (match e.usageMetadata with
       | some uu => match uu.promptTokenCount with
         | some n => if n ≠ 0 then n else s.inputTokens
         | none => s.inputTokens
       | none => s.inputTokens) ∧
    (gStep s e).outputTokens =
      (match e.usageMetadata with
       | some uu => match uu.candidatesTokenCount with
         | some n => if n ≠ 0 then n else s.outputTokens
         | none => s.outputTokens
       | none => s.outputTokens) := by
  obtain ⟨ps, f, u⟩ := e
  have h1 := gApplyParts_tokens s ps
  have h2 := gApplyFinish_tokens (gApplyParts s ps) f
  have h3 := gApplyUsage_tokens (gApplyFinish (gApplyParts s ps) f) u
  constructor
  · have hin : (gApplyFinish (gApplyParts s ps) f).inputTokens =
        s.inputTokens := h2.1.trans h1.1
    rw [show gStep s ⟨ps, f, u⟩ =
        gApplyUsage (gApplyFinish (gApplyParts s ps) f) u from rfl, h3.1, hin]
  · have hout : (gApplyFinish (gApplyParts s ps) f).outputTokens =
        s.outputTokens := h2.2.trans h1.2
    rw [show gStep s ⟨ps, f, u⟩ =
        gApplyUsage (gApplyFinish (gApplyParts s ps) f) u from rfl, h3.2, hout]

/-- Anthropic accumulates reported usage additively over a round. -/
theorem anFold_tokens (jparse : JParse) (evs : List AnEvent) :
    ∀ s : AnState,
      (anFold jparse s evs).inputTokens = s.inputTokens + anInputTotal evs ∧
      (anFold jparse s evs).outputTokens = s.outputTokens + anOutputTotal evs := by
  induction evs with
  | nil => intro s; simp [anFold, anInputTotal, anOutputTotal]
  | cons e rest ih =>
    intro s
    have hstep := anStep_tokens jparse s e
    have hrest := ih (anStep jparse s e)
    have hfold : anFold jparse s (e :: rest) =
        anFold jparse (anStep jparse s e) rest := rfl
    constructor
    · rw [hfold, hrest.1, hstep.1]
      simp only [anInputTotal, List.map_cons, List.sum_cons]
      omega
    · rw [hfold, hrest.2, hstep.2]
      simp only [anOutputTotal, List.map_cons, List.sum_cons]
      omega

/-- OpenAI overwrites the running totals with each usage chunk. -/
theorem oaFold_tokens (jparse : JParse) (evs : List OaEvent) :
    ∀ s : OaState,
      (oaFold jparse s evs).inputTokens = oaFinalIn evs s.inputTokens ∧
      (oaFold jparse s evs).outputTokens = oaFinalOut evs s.outputTokens := by
  induction evs with
  | nil => intro s; exact ⟨rfl, rfl⟩
  | cons e rest ih =>
    intro s
    have hstep := oaStep_tokens jparse s e
    have hrest := ih (oaStep jparse s e)
    constructor
    · refine hrest.1.trans ?_
      rw [hstep.1]
      rfl
    · refine hrest.2.trans ?_
      rw [hstep.2]
      rfl

/-- Gemini overwrites each counter with the latest truthy reported value. -/
theorem gFold_tokens (evs : List GEvent) :
    ∀ s : GState,
      (gFold s evs).inputTokens = gFinalIn evs s.inputTokens ∧
      (gFold s evs).outputTokens = gFinalOut evs s.outputTokens := by
  induction evs with
  | nil => intro s; exact ⟨rfl, rfl⟩
  | cons e rest ih =>
    intro s
    have hstep := gStep_tokens s e
    have hrest := ih (gStep s e)
    constructor
    · refine hrest.1.trans ?_
      rw [hstep.1]
      rfl
    · refine hrest.2.trans ?_
      rw [hstep.2]
      rfl

/-- Claim C1 (amended): only the Anthropic adapter accumulates usage across
a turn.  Over any round, Anthropic adds all usage reported by the round's
events onto the carried totals (and the tool-call continuation passes the
round-end totals into the next round); OpenAI overwrites the carried totals
with the values of each usage chunk, and Gemini overwrites each counter
with the latest truthy reported value, so for those two adapters the final
`onUsage` reports the last-reported values, not a sum across rounds. -/
theorem usageAccounting_amended :
    (∀ (jparse : JParse) (s : AnState) (evs : List AnEvent),
      (anFold jparse s evs).inputTokens = s.inputTokens + anInputTotal evs ∧
      (anFold jparse s evs).outputTokens =
        s.outputTokens + anOutputTotal evs) ∧
    (∀ (jparse : JParse) (s : OaState) (evs : List OaEvent),
      (oaFold jparse s evs).inputTokens = oaFinalIn evs s.inputTokens ∧
      (oaFold jparse s evs).outputTokens = oaFinalOut evs s.outputTokens) ∧
    (∀ (s : GState) (evs : List GEvent),
      (gFold s evs).inputTokens = gFinalIn evs s.inputTokens ∧
      (gFold s evs).outputTokens = gFinalOut evs s.outputTokens) ∧
    (∀ (jparse : JParse) (loader : Loader) (modelId : String)
        (evs : List AnEvent) (rest : List (Round AnEvent)) (carry : AnCarry),
      (anFold jparse (anInitState carry) evs).stopReason = "tool_use" →
      (anFold jparse (anInitState carry) evs).pendingToolCalls ≠ [] →
      anRun jparse (some loader) modelId (.completed evs :: rest) carry =
        ((anFold jparse (anInitState carry) evs).trace ++
          anResolveAll loader
            (anFold jparse (anInitState carry) evs).pendingToolCalls ++
          (anRun jparse (some loader) modelId rest
            ⟨(anFold jparse (anInitState carry) evs).inputTokens,
             (anFold jparse (anInitState carry) evs).outputTokens,
             (anFold jparse (anInitState carry) evs).webSearchCount,
             (anFold jparse (anInitState carry) evs).fullResponse⟩).1,
         (anRun jparse (some loader) modelId rest
           ⟨(anFold jparse (anInitState carry) evs).inputTokens,
            (anFold jparse (anInitState carry) evs).outputTokens,
            (anFold jparse (anInitState carry) evs).webSearchCount,
            (anFold jparse (anInitState carry) evs).fullResponse⟩).2)) := by
  refine ⟨fun jp s evs => anFold_tokens jp evs s,
    fun jp s evs => oaFold_tokens jp evs s,
    fun s evs => gFold_tokens evs s, ?_⟩
  intro jparse loader modelId evs rest carry h1 h2
  simp only [anRun]
  rw [if_pos ⟨h1, h2, rfl⟩]
  rfl

/-- A loader that resolves every request with the requested path. -/
def okLoaderW : Loader := fun p => .files [⟨jsShow p, "hello contents"⟩]

/-- First OpenAI round of the concrete two-round run: one `load_file`
tool-call delta, a `tool_calls` finish, usage `(10, 20)`. -/
def oaRound1 : List OaEvent :=
  [ ⟨some ⟨none, some [⟨some 0, some "call_1", some "load_file",
      some "\x7b\"path\":\"a.md\"\x7d"⟩]⟩, none, none⟩,
    ⟨none, some "tool_calls", none⟩,
    ⟨none, none, some ⟨some 10, some 20⟩⟩ ]

/-- Second OpenAI round: a text delta, a `stop` finish, usage `(30, 5)`. -/
def oaRound2 : List OaEvent :=
  [ ⟨some ⟨some "done", none⟩, some "stop", none⟩,
    ⟨none, none, some ⟨some 30, some 5⟩⟩ ]

/-- The token pairs reported through `onUsage` in a trace. -/
def usagePairsOf (tr : List Callback) : List (Nat × Nat) :=
  tr.filterMap (fun c => match c with
    | .onUsage u => some (u.inputTokens, u.outputTokens)
    | _ => none)

/-- Claim C1 counterexample: an OpenAI turn with two streaming rounds whose
usage chunks report `(10, 20)` and `(30, 5)` emits `onUsage` with
`(30, 5)` — the last round's values — not the across-round sum
`(40, 25)`. -/
theorem usageAccounting_counterexample :
    usagePairsOf (oaSendMessage oaJparseW (some okLoaderW) "gpt-5-nano"
      [.completed oaRound1, .completed oaRound2]) = [(30, 5)] ∧
    (30, 5) ≠ (10 + 30, 20 + 5) := by decide

/-- Stream events of the concrete Anthropic tool round used by the C1
witness. -/
def anEvsW : List AnEvent :=
  [.contentBlockStart (.toolUse "toolu_1" "load_file"),
   .contentBlockDelta (.inputJsonDelta "\x7b\"path\":\"a.md\"\x7d"),
   .contentBlockStop,
   .messageStart (some 7),
   .messageDelta (some 9) (some "tool_use")]

/-- Witness for C1 (amended): the concrete Anthropic tool round ends in
`tool_use` with a pending call, and the continuation request is issued with
the accumulated totals `(7, 9)`. -/
theorem usageAccounting_amended_witness :
    (anFold oaJparseW (anInitState ⟨0, 0, 0, ""⟩) anEvsW).stopReason =
      "tool_use" ∧
    (anFold oaJparseW (anInitState ⟨0, 0, 0, ""⟩) anEvsW).pendingToolCalls ≠
      [] ∧
    (anFold oaJparseW (anInitState ⟨0, 0, 0, ""⟩) anEvsW).inputTokens = 7 ∧
    (anFold oaJparseW (anInitState ⟨0, 0, 0, ""⟩) anEvsW).outputTokens = 9 ∧
    anRun oaJparseW (some okLoaderW) "claude-haiku-4-5-20251001"
        [.completed anEvsW, .completed []] ⟨0, 0, 0, ""⟩ =
      ((anFold oaJparseW (anInitState ⟨0, 0, 0, ""⟩) anEvsW).trace ++
        anResolveAll okLoaderW
          (anFold oaJparseW (anInitState ⟨0, 0, 0, ""⟩) anEvsW).pendingToolCalls ++
        (anRun oaJparseW (some okLoaderW) "claude-haiku-4-5-20251001"
          [.completed []]
          ⟨(anFold oaJparseW (anInitState ⟨0, 0, 0, ""⟩) anEvsW).inputTokens,
           (anFold oaJparseW (anInitState ⟨0, 0, 0, ""⟩) anEvsW).outputTokens,
           (anFold oaJparseW (anInitState ⟨0, 0, 0, ""⟩) anEvsW).webSearchCount,
           (anFold oaJparseW (anInitState ⟨0, 0, 0, ""⟩) anEvsW).fullResponse⟩).1,
       (anRun oaJparseW (some okLoaderW) "claude-haiku-4-5-20251001"
         [.completed []]
         ⟨(anFold oaJparseW (anInitState ⟨0, 0, 0, ""⟩) anEvsW).inputTokens,
          (anFold oaJparseW (anInitState ⟨0, 0, 0, ""⟩) anEvsW).outputTokens,
          (anFold oaJparseW (anInitState ⟨0, 0, 0, ""⟩) anEvsW).webSearchCount,
          (anFold oaJparseW (anInitState ⟨0, 0, 0, ""⟩) anEvsW).fullResponse⟩).2) :=
  ⟨by decide, by decide, by decide, by decide,
   usageAccounting_amended.2.2.2 oaJparseW okLoaderW
     "claude-haiku-4-5-20251001" anEvsW [.completed []] ⟨0, 0, 0, ""⟩
     (by decide) (by decide)⟩

/-! ## Claim C2: callback order on a tool-free successful stream -/

/-- Concatenation of a list of strings in order. -/
def concatStrings : List String → String
  | [] => ""
  | t :: rest => t ++ concatStrings rest

/-- Anthropic events that involve no tool machinery. -/
def anPlainEvent : AnEvent → Bool
  | .contentBlockStart (.toolUse _ _) => false
  | .contentBlockStart (.serverToolUse _) => false
  | .contentBlockStart .codeExecutionToolResult => false
  | .contentBlockStart (.codeExecutionToolResultError _) => false
  | .contentBlockStart (.webSearchToolResultError _) => false
  | .contentBlockStart (.webSearchToolResult _) => false
  | .contentBlockStart .otherBlock => true
  | .contentBlockDelta (.textDelta _) => true
  | .contentBlockDelta (.inputJsonDelta _) => false
  | .contentBlockDelta .otherDelta => true
  | .contentBlockStop => true
  | .messageStart _ => true
  | .messageDelta _ _ => true
  | .otherEvent => true

/-- The text an Anthropic event forwards through `onToken` (empty deltas
are dropped by the truthiness guard). -/
def anTextOfEvent : AnEvent → Option String
  | .contentBlockDelta (.textDelta t) => if t ≠ "" then some t else none
  | _ => none

/-- The texts forwarded over an Anthropic round, in order. -/
def anTextsOf (evs : List AnEvent) : List String :=
  evs.filterMap anTextOfEvent

/-- The stop reason recorded after one Anthropic event. -/
def anStopOfEvent (e : AnEvent) (acc : String) : String :=
  match e with
  | .messageDelta _ (some r) => if r ≠ "" then r else acc
  | _ => acc

/-- The stop reason after folding Anthropic events over a starting value. -/
def lastStopOf (evs : List AnEvent) (start : String) : String :=
  evs.foldl (fun acc e => anStopOfEvent e acc) start

/-- Effect of one plain Anthropic event on the stream state. -/
theorem anStep_plain (jparse : JParse) (s : AnState) (e : AnEvent)
    (he : anPlainEvent e = true) (hid : s.currentToolId = "")
    (hname : s.currentToolName = "") (hinput : s.currentToolInput = "") :
    anStep jparse s e = { s with
      fullResponse := match anTextOfEvent e with
        | some t => s.fullResponse ++ t
        | none => s.fullResponse,
      trace := match anTextOfEvent e with
        | some t => s.trace ++ [Callback.onToken t]
        | none => s.trace,
      inputTokens := s.inputTokens + anInputOfEvent e,
      outputTokens := s.outputTokens + anOutputOfEvent e,
      stopReason := anStopOfEvent e s.stopReason } := by
  obtain ⟨fr, cti, ctn, ctin, ws, it, ot, sr, ptc, tr⟩ := s
  dsimp only at hid hname hinput
  subst hid
  subst hname
  subst hinput
  cases e with
  | contentBlockStart block =>
    cases block with
    | toolUse id name => exact Bool.noConfusion he
    | serverToolUse name => exact Bool.noConfusion he
    | codeExecutionToolResult => exact Bool.noConfusion he
    | codeExecutionToolResultError m => exact Bool.noConfusion he
    | webSearchToolResultError m => exact Bool.noConfusion he
    | webSearchToolResult r => exact Bool.noConfusion he
    | otherBlock =>
      simp_all [anStep, anTextOfEvent, anInputOfEvent, anOutputOfEvent, anStopOfEvent]
  | contentBlockDelta delta =>
    cases delta with
    | textDelta t =>
      by_cases ht : t = "" <;>
        simp_all [anStep, anTextOfEvent, anInputOfEvent, anOutputOfEvent, anStopOfEvent]
    | inputJsonDelta pj => exact Bool.noConfusion he
    | otherDelta =>
      simp_all [anStep, anTextOfEvent, anInputOfEvent, anOutputOfEvent, anStopOfEvent]
  | contentBlockStop =>
    simp_all [anStep, anTextOfEvent, anInputOfEvent, anOutputOfEvent, anStopOfEvent]
  | messageStart u =>
    cases u <;>
      simp_all [anStep, anTextOfEvent, anInputOfEvent, anOutputOfEvent, anStopOfEvent]
  | messageDelta u r =>
    cases u with
    | none =>
      cases r with
      | none =>
        simp_all [anStep, anTextOfEvent, anInputOfEvent, anOutputOfEvent, anStopOfEvent]
      | some v =>
        by_cases hv : v = "" <;>
          simp_all [anStep, anTextOfEvent, anInputOfEvent, anOutputOfEvent, anStopOfEvent]
    | some n =>
      cases r with
      | none =>
        simp_all [anStep, anTextOfEvent, anInputOfEvent, anOutputOfEvent, anStopOfEvent]
      | some v =>
        by_cases hv : v = "" <;>
          simp_all [anStep, anTextOfEvent, anInputOfEvent, anOutputOfEvent, anStopOfEvent]
  | otherEvent =>
    simp_all [anStep, anTextOfEvent, anInputOfEvent, anOutputOfEvent, anStopOfEvent]

/-- Effect of an all-plain Anthropic round on the stream state. -/
theorem anFold_plain (jparse : JParse) (evs : List AnEvent) :
    evs.all anPlainEvent = true →
    ∀ s : AnState, s.currentToolId = "" → s.currentToolName = "" →
      s.currentToolInput = "" →
      anFold jparse s evs = { s with
        fullResponse := s.fullResponse ++ concatStrings (anTextsOf evs),
        inputTokens := s.inputTokens + anInputTotal evs,
        outputTokens := s.outputTokens + anOutputTotal evs,
        stopReason := lastStopOf evs s.stopReason,
        trace := s.trace ++ (anTextsOf evs).map Callback.onToken } := by
  induction evs with
  | nil =>
    intro _ s h1 h2 h3
    obtain ⟨fr, cti, ctn, ctin, ws, it, ot, sr, ptc, tr⟩ := s
    simp [anFold, anTextsOf, anInputTotal, anOutputTotal, lastStopOf,
      concatStrings]
  | cons e rest ih =>
    intro hall s h1 h2 h3
    rw [List.all_cons, Bool.and_eq_true] at hall
    obtain ⟨he, hrest⟩ := hall
    have hstep := anStep_plain jparse s e he h1 h2 h3
    have hfold : anFold jparse s (e :: rest) =
        anFold jparse (anStep jparse s e) rest := rfl
    rw [hfold, ih hrest (anStep jparse s e) (by rw [hstep]; exact h1)
      (by rw [hstep]; exact h2) (by rw [hstep]; exact h3), hstep]
    obtain ⟨fr, cti, ctn, ctin, ws, it, ot, sr, ptc, tr⟩ := s
    cases htx : anTextOfEvent e <;>
      simp_all [anTextsOf, List.filterMap_cons, anInputTotal, anOutputTotal,
        List.map_cons, List.sum_cons, lastStopOf, concatStrings,
        String.append_assoc, List.append_assoc, Nat.add_assoc]

/-- On a single completed all-plain Anthropic round, the adapter emits
`onStart`, the text tokens in stream order, usage when positive, and
`onComplete` with the concatenated text — nothing else. -/
theorem anNoTools_run (jparse : JParse) (loader? : Option Loader)
    (modelId : String) (evs : List AnEvent)
    (hplain : evs.all anPlainEvent = true) :
    anSendMessage jparse loader? modelId [.completed evs] =
      Callback.onStart :: ((anTextsOf evs).map Callback.onToken ++
        (if anInputTotal evs > 0 ∨ anOutputTotal evs > 0 then
          [Callback.onUsage ⟨anInputTotal evs, anOutputTotal evs, 0,
            calculateCost (anInputTotal evs) (anOutputTotal evs) modelId 0⟩]
         else []) ++
        [Callback.onComplete (concatStrings (anTextsOf evs))]) := by
  have hini := anFold_plain jparse evs hplain (anInitState ⟨0, 0, 0, ""⟩)
    rfl rfl rfl
  simp only [anSendMessage, anRun, hini]
  rw [if_neg (by simp [anInitState])]
  simp [anInitState, Nat.zero_add]

/-- A `delta` payload with no `tool_calls` array. -/
def oaPlainDelta : Option OaDelta → Bool
  | some dd => dd.toolCalls.isNone
  | none => true

/-- An OpenAI chunk that involves no tool machinery. -/
def oaPlainEvent (e : OaEvent) : Bool :=
  oaPlainDelta e.delta

/-- The text forwarded by the `if (delta.content)` paragraph (empty
content is dropped by the truthiness guard). -/
def oaTextOfContent : Option String → Option String
  | some cc => if cc ≠ "" then some cc else none
  | none => none

/-- The text a `delta` payload forwards through `onToken`. -/
def oaTextOfDelta : Option OaDelta → Option String
  | some dd => oaTextOfContent dd.content
  | none => none

/-- The text an OpenAI chunk forwards through `onToken`. -/
def oaTextOfEvent (e : OaEvent) : Option String :=
  oaTextOfDelta e.delta

/-- The texts forwarded over an OpenAI round, in order. -/
def oaTextsOf (evs : List OaEvent) : List String :=
  evs.filterMap oaTextOfEvent

/-- The finish reason recorded after one finish-reason payload. -/
def oaFinishUpd (f : Option String) (acc : String) : String :=
  match f with
  | some r => if r ≠ "" then r else acc
  | none => acc

/-- The finish reason an OpenAI chunk leaves behind. -/
def oaFinishOfEvent (e : OaEvent) (acc : String) : String :=
  oaFinishUpd e.finishReason acc

/-- The finish reason after folding OpenAI chunks over a starting value. -/
def oaLastFinish (evs : List OaEvent) (start : String) : String :=
  evs.foldl (fun acc e => oaFinishOfEvent e acc) start

/-- The input-token counter after one usage payload (overwrite). -/
def oaInUpd (u : Option OaUsage) (acc : Nat) : Nat :=
  match u with
  | some uu => uu.promptTokens.getD 0
  | none => acc

/-- The output-token counter after one usage payload (overwrite). -/
def oaOutUpd (u : Option OaUsage) (acc : Nat) : Nat :=
  match u with
  | some uu => uu.completionTokens.getD 0
  | none => acc

/-- The input-token counter an OpenAI chunk leaves behind. -/
def oaInOfEvent (e : OaEvent) (acc : Nat) : Nat :=
  oaInUpd e.usage acc

/-- The output-token counter an OpenAI chunk leaves behind. -/
def oaOutOfEvent (e : OaEvent) (acc : Nat) : Nat :=
  oaOutUpd e.usage acc

/-- `oaFinalIn` steps through `oaInOfEvent`. -/
theorem oaFinalIn_cons (e : OaEvent) (rest : List OaEvent) (start : Nat) :
    oaFinalIn (e :: rest) start = oaFinalIn rest (oaInOfEvent e start) := rfl

/-- `oaFinalOut` steps through `oaOutOfEvent`. -/
theorem oaFinalOut_cons (e : OaEvent) (rest : List OaEvent) (start : Nat) :
    oaFinalOut (e :: rest) start = oaFinalOut rest (oaOutOfEvent e start) := rfl

/-- `oaLastFinish` steps through `oaFinishOfEvent`. -/
theorem oaLastFinish_cons (e : OaEvent) (rest : List OaEvent)
    (start : String) :
    oaLastFinish (e :: rest) start =
      oaLastFinish rest (oaFinishOfEvent e start) := rfl

/-- Characterization of the `if (delta.content)` paragraph. -/
theorem oaApplyContent_plain (s : OaState) (c : Option String) :
    oaApplyContent s c = { s with
      fullResponse := match oaTextOfContent c with
        | some t => s.fullResponse ++ t
        | none => s.fullResponse,
      trace := match oaTextOfContent c with
        | some t => s.trace ++ [Callback.onToken t]
        | none => s.trace } := by
  cases c with
  | none => rfl
  | some cc =>
    by_cases h : cc = "" <;> simp [oaApplyContent, oaTextOfContent, h]

/-- Characterization of the finish-reason paragraph. -/
theorem oaApplyFinish_plain (s : OaState) (f : Option String) :
    oaApplyFinish s f = { s with
      finishReason := oaFinishUpd f s.finishReason } := by
  cases f with
  | none => rfl
  | some r =>
    by_cases h : r = "" <;> simp [oaApplyFinish, oaFinishUpd, h]

/-- Characterization of the usage paragraph. -/
theorem oaApplyUsage_plain (s : OaState) (u : Option OaUsage) :
    oaApplyUsage s u = { s with
      inputTokens := oaInUpd u s.inputTokens,
      outputTokens := oaOutUpd u s.outputTokens } := by
  cases u <;> rfl

/-- Characterization of the `if (delta)` paragraph on a tool-free delta. -/
theorem oaApplyDelta_plain (jparse : JParse) (s : OaState)
    (d : Option OaDelta) (hd : oaPlainDelta d = true) :
    oaApplyDelta jparse s d = { s with
      fullResponse := match oaTextOfDelta d with
        | some t => s.fullResponse ++ t
        | none => s.fullResponse,
      trace := match oaTextOfDelta d with
        | some t => s.trace ++ [Callback.onToken t]
        | none => s.trace } := by
  cases d with
  | none => rfl
  | some dd =>
    obtain ⟨c, tcs⟩ := dd
    have htcs : tcs = none := by
      simpa [oaPlainDelta, Option.isNone_iff_eq_none] using hd
    subst htcs
    have h1 : oaApplyDelta jparse s (some ⟨c, none⟩) = oaApplyContent s c := rfl
    rw [h1, oaApplyContent_plain]
    simp only [oaTextOfDelta]

/-- Effect of one plain OpenAI chunk on the stream state. -/
theorem oaStep_plain (jparse : JParse) (s : OaState) (e : OaEvent)
    (he : oaPlainEvent e = true) :
    oaStep jparse s e = { s with
      fullResponse := match oaTextOfEvent e with
        | some t => s.fullResponse ++ t
        | none => s.fullResponse,
      trace := match oaTextOfEvent e with
        | some t => s.trace ++ [Callback.onToken t]
        | none => s.trace,
      inputTokens := oaInOfEvent e s.inputTokens,
      outputTokens := oaOutOfEvent e s.outputTokens,
      finishReason := oaFinishOfEvent e s.finishReason } := by
  rw [oaStep, oaApplyDelta_plain jparse s e.delta he, oaApplyFinish_plain,
    oaApplyUsage_plain]
  cases htx : oaTextOfDelta e.delta <;>
    simp_all [oaTextOfEvent, oaInOfEvent, oaOutOfEvent, oaFinishOfEvent]

/-- Effect of an all-plain OpenAI round on the stream state. -/
theorem oaFold_plain (jparse : JParse) (evs : List OaEvent) :
    evs.all oaPlainEvent = true →
    ∀ s : OaState,
      oaFold jparse s evs = { s with
        fullResponse := s.fullResponse ++ concatStrings (oaTextsOf evs),
        inputTokens := oaFinalIn evs s.inputTokens,
        outputTokens := oaFinalOut evs s.outputTokens,
        finishReason := oaLastFinish evs s.finishReason,
        trace := s.trace ++ (oaTextsOf evs).map Callback.onToken } := by
  induction evs with
  | nil =>
    intro _ s
    obtain ⟨fr, it, ot, ptc, fin, tr⟩ := s
    simp [oaFold, oaTextsOf, oaFinalIn, oaFinalOut, oaLastFinish,
      concatStrings]
  | cons e rest ih =>
    intro hall s
    rw [List.all_cons, Bool.and_eq_true] at hall
    obtain ⟨he, hrest⟩ := hall
    have hfold : oaFold jparse s (e :: rest) =
        oaFold jparse (oaStep jparse s e) rest := rfl
    rw [hfold, oaStep_plain jparse s e he, ih hrest]
    obtain ⟨fr, it, ot, ptc, fin, tr⟩ := s
    cases htx : oaTextOfEvent e <;>
      simp_all [oaTextsOf, List.filterMap_cons, oaFinalIn_cons,
        oaFinalOut_cons, oaLastFinish_cons, concatStrings,
        String.append_assoc, List.append_assoc]

/-- On a single completed all-plain OpenAI round, the adapter emits
`onStart`, the text tokens in stream order, usage when positive, and
`onComplete` with the concatenated text — nothing else. -/
theorem oaNoTools_run (jparse : JParse) (loader? : Option Loader)
    (modelId : String) (evs : List OaEvent)
    (hplain : evs.all oaPlainEvent = true) :
    oaSendMessage jparse loader? modelId [.completed evs] =
      Callback.onStart :: ((oaTextsOf evs).map Callback.onToken ++
        (if oaFinalIn evs 0 > 0 ∨ oaFinalOut evs 0 > 0 then
          [Callback.onUsage ⟨oaFinalIn evs 0, oaFinalOut evs 0, 0,
            calculateCost (oaFinalIn evs 0) (oaFinalOut evs 0) modelId 0⟩]
         else []) ++
        [Callback.onComplete (concatStrings (oaTextsOf evs))]) := by
  have hini := oaFold_plain jparse evs hplain (oaInitState ⟨0, 0, ""⟩)
  simp only [oaSendMessage, oaRun, hini]
  rw [if_neg (by simp [oaInitState])]
  simp [oaInitState]

/-- A content part with no `functionCall`. -/
def gPlainPart (p : GPart) : Bool :=
  p.functionCall.isNone

/-- A Gemini chunk that involves no tool machinery. -/
def gPlainEvent (e : GEvent) : Bool :=
  match e.parts with
  | some ps => ps.all gPlainPart
  | none => true

/-- The text forwarded by the `if (part.text)` paragraph. -/
def gTextUpd : Option String → Option String
  | some tt => if tt ≠ "" then some tt else none
  | none => none

/-- The text a content part forwards through `onToken`. -/
def gTextOfPart (p : GPart) : Option String :=
  gTextUpd p.text

/-- The texts a Gemini chunk forwards through `onToken`, in order. -/
def gTextsOfEvent (e : GEvent) : List String :=
  match e.parts with
  | some ps => ps.filterMap gTextOfPart
  | none => []

/-- The texts forwarded over a Gemini round, in order. -/
def gTextsOf : List GEvent → List String
  | [] => []
  | e :: rest => gTextsOfEvent e ++ gTextsOf rest

/-- The finish reason recorded after one finish-reason payload. -/
def gFinishUpd (f : Option String) (acc : String) : String :=
  match f with
  | some r => if r ≠ "" then r else acc
  | none => acc

/-- The finish reason a Gemini chunk leaves behind. -/
def gFinishOfEvent (e : GEvent) (acc : String) : String :=
  gFinishUpd e.finishReason acc

/-- The finish reason after folding Gemini chunks over a starting value. -/
def gLastFinish (evs : List GEvent) (start : String) : String :=
  evs.foldl (fun acc e => gFinishOfEvent e acc) start

/-- The input-token counter after one usage payload (latest truthy wins). -/
def gInUpd (u : Option GUsage) (acc : Nat) : Nat :=
  match u with
  | some uu => match uu.promptTokenCount with
    | some n => if n ≠ 0 then n else acc
    | none => acc
  | none => acc

/-- The output-token counter after one usage payload (latest truthy
wins). -/
def gOutUpd (u : Option GUsage) (acc : Nat) : Nat :=
  match u with
  | some uu => match uu.candidatesTokenCount with
    | some n => if n ≠ 0 then n else acc
    | none => acc
  | none => acc

/-- The input-token counter a Gemini chunk leaves behind. -/
def gInOfEvent (e : GEvent) (acc : Nat) : Nat :=
  gInUpd e.usageMetadata acc

/-- The output-token counter a Gemini chunk leaves behind. -/
def gOutOfEvent (e : GEvent) (acc : Nat) : Nat :=
  gOutUpd e.usageMetadata acc

/-- `gFinalIn` steps through `gInOfEvent`. -/
theorem gFinalIn_cons (e : GEvent) (rest : List GEvent) (start : Nat) :
    gFinalIn (e :: rest) start = gFinalIn rest (gInOfEvent e start) := rfl

/-- `gFinalOut` steps through `gOutOfEvent`. -/
theorem gFinalOut_cons (e : GEvent) (rest : List GEvent) (start : Nat) :
    gFinalOut (e :: rest) start = gFinalOut rest (gOutOfEvent e start) := rfl

/-- Splitting `concatStrings` over an append. -/
theorem concatStrings_append (a b : List String) :
    concatStrings (a ++ b) = concatStrings a ++ concatStrings b := by
  induction a with
  | nil => simp [concatStrings]
  | cons x xs ih => simp [concatStrings, ih, String.append_assoc]

/-- Characterization of the `if (part.text)` paragraph. -/
theorem gApplyText_plain (s : GState) (t : Option String) :
    gApplyText s t = { s with
      fullResponse := match gTextUpd t with
        | some x => s.fullResponse ++ x
        | none => s.fullResponse,
      trace := match gTextUpd t with
        | some x => s.trace ++ [Callback.onToken x]
        | none => s.trace } := by
  cases t with
  | none => rfl
  | some tt => by_cases h : tt = "" <;> simp [gApplyText, gTextUpd, h]

/-- Effect of one plain content part on the stream state. -/
theorem gPartStep_plain (s : GState) (p : GPart) (hp : gPlainPart p = true) :
    gPartStep s p = { s with
      fullResponse := match gTextOfPart p with
        | some x => s.fullResponse ++ x
        | none => s.fullResponse,
      trace := match gTextOfPart p with
        | some x => s.trace ++ [Callback.onToken x]
        | none => s.trace } := by
  have hfc : p.functionCall = none := by
    simpa [gPlainPart, Option.isNone_iff_eq_none] using hp
  rw [gPartStep, hfc]
  have h1 : ∀ s' : GState, gApplyFunctionCall s' none = s' := fun _ => rfl
  rw [h1, gApplyText_plain]
  simp only [gTextOfPart]

/-- Effect of an all-plain parts list on the stream state. -/
theorem gPartsFold_plain (ps : List GPart) :
    ps.all gPlainPart = true →
    ∀ s : GState,
      ps.foldl gPartStep s = { s with
        fullResponse :=
          s.fullResponse ++ concatStrings (ps.filterMap gTextOfPart),
        trace :=
          s.trace ++ (ps.filterMap gTextOfPart).map Callback.onToken } := by
  induction ps with
  | nil =>
    intro _ s
    obtain ⟨fr, it, ot, pfc, fin, tr⟩ := s
    simp [concatStrings]
  | cons p rest ih =>
    intro hall s
    rw [List.all_cons, Bool.and_eq_true] at hall
    obtain ⟨hp, hrest⟩ := hall
    rw [List.foldl_cons, gPartStep_plain s p hp, ih hrest]
    obtain ⟨fr, it, ot, pfc, fin, tr⟩ := s
    cases htx : gTextOfPart p <;>
      simp_all [List.filterMap_cons, concatStrings, String.append_assoc,
        List.append_assoc]

/-- Characterization of the Gemini finish-reason paragraph. -/
theorem gApplyFinish_plain (s : GState) (f : Option String) :
    gApplyFinish s f = { s with
      finishReason := gFinishUpd f s.finishReason } := by
  cases f with
  | none => rfl
  | some r => by_cases h : r = "" <;> simp [gApplyFinish, gFinishUpd, h]

/-- Characterization of the Gemini usage paragraph. -/
theorem gApplyUsage_plain (s : GState) (u : Option GUsage) :
    gApplyUsage s u = { s with
      inputTokens := gInUpd u s.inputTokens,
      outputTokens := gOutUpd u s.outputTokens } := by
  cases u with
  | none => rfl
  | some uu =>
    obtain ⟨pc, cc⟩ := uu
    cases pc with
    | none =>
      cases cc with
      | none => rfl
      | some m =>
        by_cases hm : m = 0 <;> simp [gApplyUsage, gInUpd, gOutUpd, hm]
    | some n =>
      cases cc with
      | none =>
        by_cases hn : n = 0 <;> simp [gApplyUsage, gInUpd, gOutUpd, hn]
      | some m =>
        by_cases hn : n = 0 <;> by_cases hm : m = 0 <;>
          simp [gApplyUsage, gInUpd, gOutUpd, hn, hm]

/-- Effect of one plain Gemini chunk on the stream state. -/
theorem gStep_plain (s : GState) (e : GEvent) (he : gPlainEvent e = true) :
    gStep s e = { s with
      fullResponse := s.fullResponse ++ concatStrings (gTextsOfEvent e),
      inputTokens := gInOfEvent e s.inputTokens,
      outputTokens := gOutOfEvent e s.outputTokens,
      finishReason := gFinishOfEvent e s.finishReason,
      trace := s.trace ++ (gTextsOfEvent e).map Callback.onToken } := by
  obtain ⟨parts, f, u⟩ := e
  have hstep : gStep s ⟨parts, f, u⟩ =
      gApplyUsage (gApplyFinish (gApplyParts s parts) f) u := rfl
  rw [hstep]
  cases parts with
  | none =>
    have h1 : gApplyParts s none = s := rfl
    rw [h1, gApplyFinish_plain, gApplyUsage_plain]
    simp [gTextsOfEvent, gInOfEvent, gOutOfEvent, gFinishOfEvent,
      concatStrings]
  | some ps =>
    have hps : ps.all gPlainPart = true := by simpa [gPlainEvent] using he
    have h1 : gApplyParts s (some ps) = ps.foldl gPartStep s := rfl
    rw [h1, gPartsFold_plain ps hps, gApplyFinish_plain, gApplyUsage_plain]
    simp [gTextsOfEvent, gInOfEvent, gOutOfEvent, gFinishOfEvent]

/-- Effect of an all-plain Gemini round on the stream state. -/
theorem gFold_plain (evs : List GEvent) :
    evs.all gPlainEvent = true →
    ∀ s : GState,
      gFold s evs = { s with
        fullResponse := s.fullResponse ++ concatStrings (gTextsOf evs),
        inputTokens := gFinalIn evs s.inputTokens,
        outputTokens := gFinalOut evs s.outputTokens,
        finishReason := gLastFinish evs s.finishReason,
        trace := s.trace ++ (gTextsOf evs).map Callback.onToken } := by
  induction evs with
  | nil =>
    intro _ s
    obtain ⟨fr, it, ot, pfc, fin, tr⟩ := s
    simp [gFold, gTextsOf, gFinalIn, gFinalOut, gLastFinish, concatStrings]
  | cons e rest ih =>
    intro hall s
    rw [List.all_cons, Bool.and_eq_true] at hall
    obtain ⟨he, hrest⟩ := hall
    have hfold : gFold s (e :: rest) = gFold (gStep s e) rest := rfl
    rw [hfold, gStep_plain s e he, ih hrest]
    obtain ⟨fr, it, ot, pfc, fin, tr⟩ := s
    simp only [gTextsOf, concatStrings_append, gFinalIn_cons, gFinalOut_cons]
    simp [gLastFinish, gFinishOfEvent, String.append_assoc, List.append_assoc]

/-- On a single completed all-plain Gemini round, the adapter emits
`onStart`, the text tokens in stream order, usage when positive, and
`onComplete` with the concatenated text — nothing else. -/
theorem gNoTools_run (loader? : Option Loader) (modelId : String)
    (evs : List GEvent) (hplain : evs.all gPlainEvent = true) :
    gSendMessage loader? modelId [.completed evs] =
      Callback.onStart :: ((gTextsOf evs).map Callback.onToken ++
        (if gFinalIn evs 0 > 0 ∨ gFinalOut evs 0 > 0 then
          [Callback.onUsage ⟨gFinalIn evs 0, gFinalOut evs 0, 0,
            calculateCost (gFinalIn evs 0) (gFinalOut evs 0) modelId 0⟩]
         else []) ++
        [Callback.onComplete (concatStrings (gTextsOf evs))]) := by
  have hini := gFold_plain evs hplain (gInitState ⟨0, 0, ""⟩)
  simp only [gSendMessage, gRun, hini]
  rw [if_neg (by simp [gInitState])]
  simp [gInitState]

/-- A trace of the shape `onStart`, tokens, optional usage, `onComplete`
contains no `onError`. -/
theorem noError_in_plain_shape (texts : List String) (c : Prop)
    [Decidable c] (u : UsageData) (full m : String) :
    Callback.onError m ∉
      Callback.onStart :: (texts.map Callback.onToken ++
        (if c then [Callback.onUsage u] else []) ++
        [Callback.onComplete full]) := by
  intro hm
  rcases List.mem_cons.mp hm with h | h
  · exact Callback.noConfusion h
  rcases List.mem_append.mp h with h1 | h2
  · rcases List.mem_append.mp h1 with h3 | h4
    · obtain ⟨t, _, ht⟩ := List.mem_map.mp h3
      exact Callback.noConfusion ht
    · revert h4
      split
      · intro h4
        exact Callback.noConfusion (List.mem_singleton.mp h4)
      · intro h4
        exact List.not_mem_nil _ h4
  · exact Callback.noConfusion (List.mem_singleton.mp h2)

/-- Claim C2: for each of the three adapters, a `sendMessage` call whose
single streaming round succeeds with no tool calls invokes callbacks in
the order `onStart` first, then zero or more `onToken` (one per nonempty
text delta, in stream order), then at most one `onUsage` (emitted exactly
when the final input- or output-token count is positive), then exactly
one `onComplete` carrying the concatenation of all text deltas — and
never invokes `onError`. -/
theorem callbackOrder_noTools (jparse : JParse) (loader? : Option Loader)
    (modelId : String) (aevs : List AnEvent) (oevs : List OaEvent)
    (gevs : List GEvent) (ha : aevs.all anPlainEvent = true)
    (ho : oevs.all oaPlainEvent = true)
    (hg : gevs.all gPlainEvent = true) :
    (anSendMessage jparse loader? modelId [.completed aevs] =
        Callback.onStart :: ((anTextsOf aevs).map Callback.onToken ++
          (if anInputTotal aevs > 0 ∨ anOutputTotal aevs > 0 then
            [Callback.onUsage ⟨anInputTotal aevs, anOutputTotal aevs, 0,
              calculateCost (anInputTotal aevs) (anOutputTotal aevs)
                modelId 0⟩]
           else []) ++
          [Callback.onComplete (concatStrings (anTextsOf aevs))]) ∧
      ∀ m, Callback.onError m ∉
        anSendMessage jparse loader? modelId [.completed aevs]) ∧
    (oaSendMessage jparse loader? modelId [.completed oevs] =
        Callback.onStart :: ((oaTextsOf oevs).map Callback.onToken ++
          (if oaFinalIn oevs 0 > 0 ∨ oaFinalOut oevs 0 > 0 then
            [Callback.onUsage ⟨oaFinalIn oevs 0, oaFinalOut oevs 0, 0,
              calculateCost (oaFinalIn oevs 0) (oaFinalOut oevs 0)
                modelId 0⟩]
           else []) ++
          [Callback.onComplete (concatStrings (oaTextsOf oevs))]) ∧
      ∀ m, Callback.onError m ∉
        oaSendMessage jparse loader? modelId [.completed oevs]) ∧
    (gSendMessage loader? modelId [.completed gevs] =
        Callback.onStart :: ((gTextsOf gevs).map Callback.onToken ++
          (if gFinalIn gevs 0 > 0 ∨ gFinalOut gevs 0 > 0 then
            [Callback.onUsage ⟨gFinalIn gevs 0, gFinalOut gevs 0, 0,
              calculateCost (gFinalIn gevs 0) (gFinalOut gevs 0)
                modelId 0⟩]
           else []) ++
          [Callback.onComplete (concatStrings (gTextsOf gevs))]) ∧
      ∀ m, Callback.onError m ∉
        gSendMessage loader? modelId [.completed gevs]) := by
  refine ⟨⟨anNoTools_run jparse loader? modelId aevs ha, ?_⟩,
    ⟨oaNoTools_run jparse loader? modelId oevs ho, ?_⟩,
    ⟨gNoTools_run loader? modelId gevs hg, ?_⟩⟩
  · intro m
    rw [anNoTools_run jparse loader? modelId aevs ha]
    exact noError_in_plain_shape _ _ _ _ m
  · intro m
    rw [oaNoTools_run jparse loader? modelId oevs ho]
    exact noError_in_plain_shape _ _ _ _ m
  · intro m
    rw [gNoTools_run loader? modelId gevs hg]
    exact noError_in_plain_shape _ _ _ _ m

/-- A concrete tool-free Anthropic round. -/
def anPlainEvsW : List AnEvent :=
  [.messageStart (some 3), .contentBlockDelta (.textDelta "Hi"),
   .contentBlockDelta (.textDelta " there"),
   .messageDelta (some 4) (some "end_turn")]

/-- A concrete tool-free OpenAI round. -/
def oaPlainEvsW : List OaEvent :=
  [⟨some ⟨some "Hi", none⟩, none, none⟩,
   ⟨some ⟨some " there", none⟩, some "stop", some ⟨some 3, some 4⟩⟩]

/-- A concrete tool-free Gemini round. -/
def gPlainEvsW : List GEvent :=
  [⟨some [⟨some "Hi", none⟩, ⟨some " there", none⟩], some "STOP",
    some ⟨some 3, some 4⟩⟩]

/-- A `JSON.parse` oracle that rejects everything (never consulted on a
tool-free stream). -/
def c2JParseW : JParse :=
  fun _ => .error "SyntaxError: Unexpected end of JSON input"

/-- Witness for claim C2 at concrete tool-free rounds. -/
theorem callbackOrder_noTools_witness :
    (anPlainEvsW.all anPlainEvent = true ∧
     oaPlainEvsW.all oaPlainEvent = true ∧
     gPlainEvsW.all gPlainEvent = true) ∧
    (anSendMessage c2JParseW none "claude-haiku-4-5-20251001"
        [.completed anPlainEvsW] =
      Callback.onStart :: ((anTextsOf anPlainEvsW).map Callback.onToken ++
        (if anInputTotal anPlainEvsW > 0 ∨ anOutputTotal anPlainEvsW > 0 then
          [Callback.onUsage ⟨anInputTotal anPlainEvsW,
            anOutputTotal anPlainEvsW, 0,
            calculateCost (anInputTotal anPlainEvsW)
              (anOutputTotal anPlainEvsW) "claude-haiku-4-5-20251001" 0⟩]
         else []) ++
        [Callback.onComplete (concatStrings (anTextsOf anPlainEvsW))])) ∧
    (oaSendMessage c2JParseW none "claude-haiku-4-5-20251001"
        [.completed oaPlainEvsW] =
      Callback.onStart :: ((oaTextsOf oaPlainEvsW).map Callback.onToken ++
        (if oaFinalIn oaPlainEvsW 0 > 0 ∨ oaFinalOut oaPlainEvsW 0 > 0 then
          [Callback.onUsage ⟨oaFinalIn oaPlainEvsW 0, oaFinalOut oaPlainEvsW 0,
            0, calculateCost (oaFinalIn oaPlainEvsW 0)
              (oaFinalOut oaPlainEvsW 0) "claude-haiku-4-5-20251001" 0⟩]
         else []) ++
        [Callback.onComplete (concatStrings (oaTextsOf oaPlainEvsW))])) ∧
    (gSendMessage none "claude-haiku-4-5-20251001" [.completed gPlainEvsW] =
      Callback.onStart :: ((gTextsOf gPlainEvsW).map Callback.onToken ++
        (if gFinalIn gPlainEvsW 0 > 0 ∨ gFinalOut gPlainEvsW 0 > 0 then
          [Callback.onUsage ⟨gFinalIn gPlainEvsW 0, gFinalOut gPlainEvsW 0, 0,
            calculateCost (gFinalIn gPlainEvsW 0) (gFinalOut gPlainEvsW 0)
              "claude-haiku-4-5-20251001" 0⟩]
         else []) ++
        [Callback.onComplete (concatStrings (gTextsOf gPlainEvsW))])) :=
  ⟨⟨by decide, by decide, by decide⟩,
   (callbackOrder_noTools c2JParseW none "claude-haiku-4-5-20251001"
      anPlainEvsW oaPlainEvsW gPlainEvsW
      (by decide) (by decide) (by decide)).1.1,
   (callbackOrder_noTools c2JParseW none "claude-haiku-4-5-20251001"
      anPlainEvsW oaPlainEvsW gPlainEvsW
      (by decide) (by decide) (by decide)).2.1.1,
   (callbackOrder_noTools c2JParseW none "claude-haiku-4-5-20251001"
      anPlainEvsW oaPlainEvsW gPlainEvsW
      (by decide) (by decide) (by decide)).2.2.1⟩

/-! ## Claim C3: cancellation is silent -/

/-- Callbacks other than the terminal `onComplete`/`onError` pair. -/
def goodCallback : Callback → Bool
  | .onStart => true
  | .onToken _ => true
  | .onComplete _ => false
  | .onError _ => false
  | .onUsage _ => true
  | .onWebSearch _ => true
  | .onWebSearchResults _ => true
  | .onCodeExecution _ => true
  | .onCodeExecutionComplete => true
  | .onToolError _ _ => true
  | .onFileLoad _ => true
  | .onFileLoaded _ _ => true

/-- A list of non-terminal callbacks contains no `onComplete` and no
`onError`. -/
theorem good_no_terminal (l : List Callback)
    (h : l.all goodCallback = true) :
    (∀ f, Callback.onComplete f ∉ l) ∧ (∀ m, Callback.onError m ∉ l) := by
  rw [List.all_eq_true] at h
  constructor
  · intro f hf
    have := h _ hf
    simp [goodCallback] at this
  · intro m hm
    have := h _ hm
    simp [goodCallback] at this

/-- One Anthropic stream-loop step appends only non-terminal callbacks. -/
theorem anStep_trace_good (jparse : JParse) (s : AnState) (e : AnEvent)
    (h : s.trace.all goodCallback = true) :
    (anStep jparse s e).trace.all goodCallback = true := by
  cases e with
  | contentBlockStart block =>
    cases block <;> simp only [anStep] <;> (repeat' split) <;>
      simp_all [List.all_append, goodCallback]
  | contentBlockDelta delta =>
    cases delta <;> simp only [anStep] <;> (repeat' split) <;>
      simp_all [List.all_append, goodCallback]
  | contentBlockStop =>
    simp only [anStep]
    (repeat' split) <;> simp_all
  | messageStart u =>
    cases u <;> simp_all [anStep]
  | messageDelta u r =>
    cases u <;> cases r <;> simp only [anStep] <;> (repeat' split) <;>
      simp_all
  | otherEvent => simpa [anStep] using h

/-- An Anthropic stream round preserves trace goodness. -/
theorem anFold_trace_good (jparse : JParse) (evs : List AnEvent) :
    ∀ s : AnState, s.trace.all goodCallback = true →
      (anFold jparse s evs).trace.all goodCallback = true := by
  induction evs with
  | nil => intro s h; exact h
  | cons e rest ih =>
    intro s h
    exact ih (anStep jparse s e) (anStep_trace_good jparse s e h)

/-- Anthropic tool resolution emits only non-terminal callbacks. -/
theorem anResolveCall_good (loader : Loader) (tc : AnPending) :
    (anResolveCall loader tc).2.all goodCallback = true := by
  simp only [anResolveCall]
  (repeat' split) <;> simp [goodCallback]

/-- The Anthropic tool-resolution loop emits only non-terminal
callbacks. -/
theorem anResolveAll_good (loader : Loader) (pending : List AnPending) :
    (anResolveAll loader pending).all goodCallback = true := by
  induction pending with
  | nil => rfl
  | cons tc rest ih =>
    simp only [anResolveAll, List.all_append, Bool.and_eq_true]
    refine ⟨?_, ih⟩
    split
    · exact anResolveCall_good loader tc
    · rfl

/-- If an Anthropic run ends in an abort, every emitted callback is
non-terminal. -/
theorem anRun_abort_good (jparse : JParse) (loader? : Option Loader)
    (modelId : String) :
    ∀ (rounds : List (Round AnEvent)) (carry : AnCarry),
      (anRun jparse loader? modelId rounds carry).2 = some JsExn.abort →
      (anRun jparse loader? modelId rounds carry).1.all goodCallback
        = true := by
  intro rounds
  induction rounds with
  | nil =>
    intro carry h
    exact absurd h (by simp [anRun])
  | cons r rest ih =>
    intro carry h
    cases r with
    | httpError status m => simp [anRun] at h
    | noBody => simp [anRun] at h
    | interrupted events exn =>
      exact anFold_trace_good jparse events (anInitState carry) rfl
    | completed events =>
      by_cases hc :
          (anFold jparse (anInitState carry) events).stopReason = "tool_use" ∧
          (anFold jparse (anInitState carry) events).pendingToolCalls ≠ [] ∧
          loader?.isSome
      · have hrun : anRun jparse loader? modelId
            (Round.completed events :: rest) carry =
            ((anFold jparse (anInitState carry) events).trace ++
              anResolveAll (loader?.getD (fun _ => LoaderOutcome.files []))
                (anFold jparse (anInitState carry) events).pendingToolCalls ++
              (anRun jparse loader? modelId rest
                ⟨(anFold jparse (anInitState carry) events).inputTokens,
                 (anFold jparse (anInitState carry) events).outputTokens,
                 (anFold jparse (anInitState carry) events).webSearchCount,
                 (anFold jparse (anInitState carry) events).fullResponse⟩).1,
             (anRun jparse loader? modelId rest
                ⟨(anFold jparse (anInitState carry) events).inputTokens,
                 (anFold jparse (anInitState carry) events).outputTokens,
                 (anFold jparse (anInitState carry) events).webSearchCount,
                 (anFold jparse (anInitState carry) events).fullResponse⟩).2)
            := by
          simp only [anRun]
          rw [if_pos hc]
        rw [hrun] at h ⊢
        dsimp only at h ⊢
        have g1 := anFold_trace_good jparse events (anInitState carry) rfl
        have g2 := anResolveAll_good
          (loader?.getD (fun _ => LoaderOutcome.files []))
          (anFold jparse (anInitState carry) events).pendingToolCalls
        have g3 := ih _ h
        simp [List.all_append, g1, g2, g3]
      · exfalso
        have h2 : (anRun jparse loader? modelId
            (Round.completed events :: rest) carry).2 = none := by
          simp only [anRun]
          rw [if_neg hc]
        rw [h2] at h
        exact Option.noConfusion h

/-- Creating a pending OpenAI tool call appends only non-terminal
callbacks. -/
theorem oaEnsurePending_trace_good (s : OaState) (index : Nat)
    (tc : OaToolCallDelta) (h : s.trace.all goodCallback = true) :
    (oaEnsurePending s index tc).trace.all goodCallback = true := by
  simp only [oaEnsurePending]
  (repeat' split) <;> simp_all [List.all_append, goodCallback]

/-- The argument-delta paragraph appends only non-terminal callbacks. -/
theorem oaApplyArgs_trace_good (jparse : JParse) (s : OaState) (index : Nat)
    (pending : OaPending) (tc : OaToolCallDelta)
    (h : s.trace.all goodCallback = true) :
    (oaApplyArgs jparse s index pending tc).trace.all goodCallback = true := by
  simp only [oaApplyArgs]
  (repeat' split) <;> simp_all [List.all_append, goodCallback]

/-- One OpenAI tool-call delta appends only non-terminal callbacks. -/
theorem oaToolCallStep_trace_good (jparse : JParse) (s : OaState)
    (tc : OaToolCallDelta) (h : s.trace.all goodCallback = true) :
    (oaToolCallStep jparse s tc).trace.all goodCallback = true := by
  simp only [oaToolCallStep]
  exact oaApplyArgs_trace_good jparse _ _ _ _
    (oaEnsurePending_trace_good s _ tc h)

/-- A run of OpenAI tool-call deltas appends only non-terminal
callbacks. -/
theorem oaToolCallFold_trace_good (jparse : JParse)
    (l : List OaToolCallDelta) :
    ∀ s : OaState, s.trace.all goodCallback = true →
      (l.foldl (oaToolCallStep jparse) s).trace.all goodCallback = true := by
  induction l with
  | nil => intro s h; exact h
  | cons tc rest ih =>
    intro s h
    exact ih _ (oaToolCallStep_trace_good jparse s tc h)

/-- The `if (delta.content)` paragraph appends only non-terminal
callbacks. -/
theorem oaApplyContent_trace_good (s : OaState) (c : Option String)
    (h : s.trace.all goodCallback = true) :
    (oaApplyContent s c).trace.all goodCallback = true := by
  rw [oaApplyContent_plain]
  cases oaTextOfContent c <;> simp_all [List.all_append, goodCallback]

/-- One OpenAI chunk appends only non-terminal callbacks. -/
theorem oaStep_trace_good (jparse : JParse) (s : OaState) (e : OaEvent)
    (h : s.trace.all goodCallback = true) :
    (oaStep jparse s e).trace.all goodCallback = true := by
  rw [oaStep, oaApplyUsage_plain, oaApplyFinish_plain]
  dsimp only
  cases hd : e.delta with
  | none => exact h
  | some dd =>
    have h1 : oaApplyDelta jparse s (some dd) =
        oaApplyToolCalls jparse (oaApplyContent s dd.content) dd.toolCalls :=
      rfl
    rw [h1]
    cases dd.toolCalls with
    | none => exact oaApplyContent_trace_good s dd.content h
    | some l =>
      exact oaToolCallFold_trace_good jparse l _
        (oaApplyContent_trace_good s dd.content h)

/-- An OpenAI stream round preserves trace goodness. -/
theorem oaFold_trace_good (jparse : JParse) (evs : List OaEvent) :
    ∀ s : OaState, s.trace.all goodCallback = true →
      (oaFold jparse s evs).trace.all goodCallback = true := by
  induction evs with
  | nil => intro s h; exact h
  | cons e rest ih =>
    intro s h
    exact ih _ (oaStep_trace_good jparse s e h)

/-- OpenAI tool resolution emits only non-terminal callbacks. -/
theorem oaResolveCall_good (jparse : JParse) (loader : Loader)
    (tc : OaPending) :
    (oaResolveCall jparse loader tc).2.all goodCallback = true := by
  simp only [oaResolveCall]
  (repeat' split) <;> simp [goodCallback]

/-- The OpenAI tool-resolution loop emits only non-terminal callbacks. -/
theorem oaResolveAll_good (jparse : JParse) (loader : Loader)
    (pending : List (Nat × OaPending)) :
    (oaResolveAll jparse loader pending).all goodCallback = true := by
  induction pending with
  | nil => rfl
  | cons p rest ih =>
    obtain ⟨i, tc⟩ := p
    simp only [oaResolveAll, List.all_append, Bool.and_eq_true]
    refine ⟨?_, ih⟩
    split
    · exact oaResolveCall_good jparse loader tc
    · rfl

/-- If an OpenAI run ends in an abort, every emitted callback is
non-terminal. -/
theorem oaRun_abort_good (jparse : JParse) (loader? : Option Loader)
    (modelId : String) :
    ∀ (rounds : List (Round OaEvent)) (carry : OaCarry),
      (oaRun jparse loader? modelId rounds carry).2 = some JsExn.abort →
      (oaRun jparse loader? modelId rounds carry).1.all goodCallback
        = true := by
  intro rounds
  induction rounds with
  | nil =>
    intro carry h
    exact absurd h (by simp [oaRun])
  | cons r rest ih =>
    intro carry h
    cases r with
    | httpError status m => simp [oaRun] at h
    | noBody => simp [oaRun] at h
    | interrupted events exn =>
      exact oaFold_trace_good jparse events (oaInitState carry) rfl
    | completed events =>
      by_cases hc :
          (oaFold jparse (oaInitState carry) events).finishReason
            = "tool_calls" ∧
          (oaFold jparse (oaInitState carry) events).pendingToolCalls ≠ [] ∧
          loader?.isSome
      · have hrun : oaRun jparse loader? modelId
            (Round.completed events :: rest) carry =
            ((oaFold jparse (oaInitState carry) events).trace ++
              oaResolveAll jparse
                (loader?.getD (fun _ => LoaderOutcome.files []))
                (oaFold jparse (oaInitState carry) events).pendingToolCalls ++
              (oaRun jparse loader? modelId rest
                ⟨(oaFold jparse (oaInitState carry) events).inputTokens,
                 (oaFold jparse (oaInitState carry) events).outputTokens,
                 (oaFold jparse (oaInitState carry) events).fullResponse⟩).1,
             (oaRun jparse loader? modelId rest
                ⟨(oaFold jparse (oaInitState carry) events).inputTokens,
                 (oaFold jparse (oaInitState carry) events).outputTokens,
                 (oaFold jparse (oaInitState carry) events).fullResponse⟩).2)
            := by
          simp only [oaRun]
          rw [if_pos hc]
        rw [hrun] at h ⊢
        dsimp only at h ⊢
        have g1 := oaFold_trace_good jparse events (oaInitState carry) rfl
        have g2 := oaResolveAll_good jparse
          (loader?.getD (fun _ => LoaderOutcome.files []))
          (oaFold jparse (oaInitState carry) events).pendingToolCalls
        have g3 := ih _ h
        simp [List.all_append, g1, g2, g3]
      · exfalso
        have h2 : (oaRun jparse loader? modelId
            (Round.completed events :: rest) carry).2 = none := by
          simp only [oaRun]
          rw [if_neg hc]
        rw [h2] at h
        exact Option.noConfusion h

/-- The `if (part.text)` paragraph appends only non-terminal callbacks. -/
theorem gApplyText_trace_good (s : GState) (t : Option String)
    (h : s.trace.all goodCallback = true) :
    (gApplyText s t).trace.all goodCallback = true := by
  rw [gApplyText_plain]
  cases gTextUpd t <;> simp_all [List.all_append, goodCallback]

/-- The `if (part.functionCall)` paragraph appends only non-terminal
callbacks. -/
theorem gApplyFunctionCall_trace_good (s : GState)
    (fc? : Option GFunctionCall) (h : s.trace.all goodCallback = true) :
    (gApplyFunctionCall s fc?).trace.all goodCallback = true := by
  simp only [gApplyFunctionCall]
  (repeat' split) <;> simp_all [List.all_append, goodCallback]

/-- One Gemini content part appends only non-terminal callbacks. -/
theorem gPartStep_trace_good (s : GState) (p : GPart)
    (h : s.trace.all goodCallback = true) :
    (gPartStep s p).trace.all goodCallback = true := by
  simp only [gPartStep]
  exact gApplyFunctionCall_trace_good _ _ (gApplyText_trace_good s _ h)

/-- A run of Gemini content parts appends only non-terminal callbacks. -/
theorem gPartsFold_trace_good (l : List GPart) :
    ∀ s : GState, s.trace.all goodCallback = true →
      (l.foldl gPartStep s).trace.all goodCallback = true := by
  induction l with
  | nil => intro s h; exact h
  | cons p rest ih =>
    intro s h
    exact ih _ (gPartStep_trace_good s p h)

/-- One Gemini chunk appends only non-terminal callbacks. -/
theorem gStep_trace_good (s : GState) (e : GEvent)
    (h : s.trace.all goodCallback = true) :
    (gStep s e).trace.all goodCallback = true := by
  rw [gStep, gApplyUsage_plain, gApplyFinish_plain]
  dsimp only
  cases hp : e.parts with
  | none => exact h
  | some ps => exact gPartsFold_trace_good ps s h

/-- A Gemini stream round preserves trace goodness. -/
theorem gFold_trace_good (evs : List GEvent) :
    ∀ s : GState, s.trace.all goodCallback = true →
      (gFold s evs).trace.all goodCallback = true := by
  induction evs with
  | nil => intro s h; exact h
  | cons e rest ih =>
    intro s h
    exact ih _ (gStep_trace_good s e h)

/-- Gemini function-call resolution emits only non-terminal callbacks. -/
theorem gResolveCall_good (loader : Loader) (fc : GFunctionCall) :
    (gResolveCall loader fc).2.all goodCallback = true := by
  simp only [gResolveCall]
  (repeat' split) <;> simp [goodCallback]

/-- The Gemini function-resolution loop emits only non-terminal
callbacks. -/
theorem gResolveAll_good (loader : Loader) (pending : List GFunctionCall) :
    (gResolveAll loader pending).all goodCallback = true := by
  induction pending with
  | nil => rfl
  | cons fc rest ih =>
    simp only [gResolveAll, List.all_append, Bool.and_eq_true]
    refine ⟨?_, ih⟩
    split
    · exact gResolveCall_good loader fc
    · rfl

/-- If a Gemini run ends in an abort, every emitted callback is
non-terminal. -/
theorem gRun_abort_good (loader? : Option Loader) (modelId : String) :
    ∀ (rounds : List (Round GEvent)) (carry : GCarry),
      (gRun loader? modelId rounds carry).2 = some JsExn.abort →
      (gRun loader? modelId rounds carry).1.all goodCallback = true := by
  intro rounds
  induction rounds with
  | nil =>
    intro carry h
    exact absurd h (by simp [gRun])
  | cons r rest ih =>
    intro carry h
    cases r with
    | httpError status m => simp [gRun] at h
    | noBody => simp [gRun] at h
    | interrupted events exn =>
      exact gFold_trace_good events (gInitState carry) rfl
    | completed events =>
      by_cases hc :
          (gFold (gInitState carry) events).pendingFunctionCalls ≠ [] ∧
          loader?.isSome
      · have hrun : gRun loader? modelId
            (Round.completed events :: rest) carry =
            ((gFold (gInitState carry) events).trace ++
              gResolveAll (loader?.getD (fun _ => LoaderOutcome.files []))
                (gFold (gInitState carry) events).pendingFunctionCalls ++
              (gRun loader? modelId rest
                ⟨(gFold (gInitState carry) events).inputTokens,
                 (gFold (gInitState carry) events).outputTokens,
                 (gFold (gInitState carry) events).fullResponse⟩).1,
             (gRun loader? modelId rest
                ⟨(gFold (gInitState carry) events).inputTokens,
                 (gFold (gInitState carry) events).outputTokens,
                 (gFold (gInitState carry) events).fullResponse⟩).2) := by
          simp only [gRun]
          rw [if_pos hc]
        rw [hrun] at h ⊢
        dsimp only at h ⊢
        have g1 := gFold_trace_good events (gInitState carry) rfl
        have g2 := gResolveAll_good
          (loader?.getD (fun _ => LoaderOutcome.files []))
          (gFold (gInitState carry) events).pendingFunctionCalls
        have g3 := ih _ h
        simp [List.all_append, g1, g2, g3]
      · exfalso
        have h2 : (gRun loader? modelId
            (Round.completed events :: rest) carry).2 = none := by
          simp only [gRun]
          rw [if_neg hc]
        rw [h2] at h
        exact Option.noConfusion h

/-- `onStart` followed by non-terminal callbacks contains no `onComplete`
and no `onError`. -/
theorem silent_of_good (t : List Callback)
    (h : t.all goodCallback = true) :
    (∀ f, Callback.onComplete f ∉ Callback.onStart :: t) ∧
    (∀ m, Callback.onError m ∉ Callback.onStart :: t) := by
  obtain ⟨hc, he⟩ := good_no_terminal t h
  constructor
  · intro f hf
    rcases List.mem_cons.mp hf with h1 | h1
    · exact Callback.noConfusion h1
    · exact hc f h1
  · intro m hm
    rcases List.mem_cons.mp hm with h1 | h1
    · exact Callback.noConfusion h1
    · exact he m h1

/-- Claim C3: for each of the three adapters, when the sequence of
streaming rounds ends in an abort exception (the in-flight request
rejecting with `AbortError` after the cancellation signal fires),
`sendMessage` returns silently: its callback trace contains no
`onComplete` and no `onError`. -/
theorem cancellationSilent (jparse : JParse) (loader? : Option Loader)
    (modelId : String) (arounds : List (Round AnEvent))
    (orounds : List (Round OaEvent)) (grounds : List (Round GEvent))
    (ha : (anRun jparse loader? modelId arounds ⟨0, 0, 0, ""⟩).2
      = some JsExn.abort)
    (ho : (oaRun jparse loader? modelId orounds ⟨0, 0, ""⟩).2
      = some JsExn.abort)
    (hg : (gRun loader? modelId grounds ⟨0, 0, ""⟩).2 = some JsExn.abort) :
    ((∀ f, Callback.onComplete f ∉
        anSendMessage jparse loader? modelId arounds) ∧
      (∀ m, Callback.onError m ∉
        anSendMessage jparse loader? modelId arounds)) ∧
    ((∀ f, Callback.onComplete f ∉
        oaSendMessage jparse loader? modelId orounds) ∧
      (∀ m, Callback.onError m ∉
        oaSendMessage jparse loader? modelId orounds)) ∧
    ((∀ f, Callback.onComplete f ∉ gSendMessage loader? modelId grounds) ∧
      (∀ m, Callback.onError m ∉ gSendMessage loader? modelId grounds)) := by
  refine ⟨?_, ?_, ?_⟩
  · have hpair : anRun jparse loader? modelId arounds ⟨0, 0, 0, ""⟩ =
        ((anRun jparse loader? modelId arounds ⟨0, 0, 0, ""⟩).1,
         some JsExn.abort) := by
      rw [← ha]
    have hmsg : anSendMessage jparse loader? modelId arounds =
        Callback.onStart ::
          (anRun jparse loader? modelId arounds ⟨0, 0, 0, ""⟩).1 := by
      rw [anSendMessage, hpair]
      simp
    rw [hmsg]
    exact silent_of_good _
      (anRun_abort_good jparse loader? modelId arounds _ ha)
  · have hpair : oaRun jparse loader? modelId orounds ⟨0, 0, ""⟩ =
        ((oaRun jparse loader? modelId orounds ⟨0, 0, ""⟩).1,
         some JsExn.abort) := by
      rw [← ho]
    have hmsg : oaSendMessage jparse loader? modelId orounds =
        Callback.onStart ::
          (oaRun jparse loader? modelId orounds ⟨0, 0, ""⟩).1 := by
      rw [oaSendMessage, hpair]
      simp
    rw [hmsg]
    exact silent_of_good _
      (oaRun_abort_good jparse loader? modelId orounds _ ho)
  · have hpair : gRun loader? modelId grounds ⟨0, 0, ""⟩ =
        ((gRun loader? modelId grounds ⟨0, 0, ""⟩).1, some JsExn.abort) := by
      rw [← hg]
    have hmsg : gSendMessage loader? modelId grounds =
        Callback.onStart :: (gRun loader? modelId grounds ⟨0, 0, ""⟩).1 := by
      rw [gSendMessage, hpair]
      simp
    rw [hmsg]
    exact silent_of_good _ (gRun_abort_good loader? modelId grounds _ hg)

/-- An Anthropic round interrupted mid-stream by an abort. -/
def c3RoundsAnW : List (Round AnEvent) :=
  [.interrupted [.contentBlockDelta (.textDelta "Hi")] .abort]

/-- An OpenAI round interrupted mid-stream by an abort. -/
def c3RoundsOaW : List (Round OaEvent) :=
  [.interrupted [⟨some ⟨some "Hi", none⟩, none, none⟩] .abort]

/-- A Gemini round interrupted mid-stream by an abort. -/
def c3RoundsGW : List (Round GEvent) :=
  [.interrupted [⟨some [⟨some "Hi", none⟩], none, none⟩] .abort]

/-- A `JSON.parse` oracle used in the C3 witness (never consulted). -/
def c3JParseW : JParse :=
  fun _ => .error "SyntaxError: Unexpected end of JSON input"

/-- Witness for claim C3 at concrete aborted rounds. -/
theorem cancellationSilent_witness :
    (anRun c3JParseW none "claude-haiku-4-5-20251001" c3RoundsAnW
        ⟨0, 0, 0, ""⟩).2 = some JsExn.abort ∧
    (oaRun c3JParseW none "claude-haiku-4-5-20251001" c3RoundsOaW
        ⟨0, 0, ""⟩).2 = some JsExn.abort ∧
    (gRun none "claude-haiku-4-5-20251001" c3RoundsGW ⟨0, 0, ""⟩).2
      = some JsExn.abort ∧
    Callback.onComplete "Hi" ∉
      anSendMessage c3JParseW none "claude-haiku-4-5-20251001" c3RoundsAnW ∧
    Callback.onError "AbortError" ∉
      anSendMessage c3JParseW none "claude-haiku-4-5-20251001" c3RoundsAnW ∧
    Callback.onComplete "Hi" ∉
      oaSendMessage c3JParseW none "claude-haiku-4-5-20251001" c3RoundsOaW ∧
    Callback.onError "AbortError" ∉
      oaSendMessage c3JParseW none "claude-haiku-4-5-20251001" c3RoundsOaW ∧
    Callback.onComplete "Hi" ∉
      gSendMessage none "claude-haiku-4-5-20251001" c3RoundsGW ∧
    Callback.onError "AbortError" ∉
      gSendMessage none "claude-haiku-4-5-20251001" c3RoundsGW :=
  ⟨rfl, rfl, rfl,
   (cancellationSilent c3JParseW none "claude-haiku-4-5-20251001"
      c3RoundsAnW c3RoundsOaW c3RoundsGW rfl rfl rfl).1.1 "Hi",
   (cancellationSilent c3JParseW none "claude-haiku-4-5-20251001"
      c3RoundsAnW c3RoundsOaW c3RoundsGW rfl rfl rfl).1.2 "AbortError",
   (cancellationSilent c3JParseW none "claude-haiku-4-5-20251001"
      c3RoundsAnW c3RoundsOaW c3RoundsGW rfl rfl rfl).2.1.1 "Hi",
   (cancellationSilent c3JParseW none "claude-haiku-4-5-20251001"
      c3RoundsAnW c3RoundsOaW c3RoundsGW rfl rfl rfl).2.1.2 "AbortError",
   (cancellationSilent c3JParseW none "claude-haiku-4-5-20251001"
      c3RoundsAnW c3RoundsOaW c3RoundsGW rfl rfl rfl).2.2.1 "Hi",
   (cancellationSilent c3JParseW none "claude-haiku-4-5-20251001"
      c3RoundsAnW c3RoundsOaW c3RoundsGW rfl rfl rfl).2.2.2 "AbortError"⟩
